import Mathlib

/-!
Verification of the training engine of this repository against its
natural-language specification.

The development shallowly embeds the two source files:

* `experiments/agents/drrn/drrn.py` — the `DRRNAgent` class: replay-memory
  interaction (`observe`), the Q-learning update (`update`), the vectorized
  rollout loop with episode bookkeeping (`update_parameters`), and
  checkpoint restoration (`load`);
* `experiments/train_language_agent.py` — the `PPOUpdater.perform_update`
  method: the clipped-surrogate policy loss and the `last`/`backup`
  checkpoint-generation management, and the driver `run_agent`.

Conventions of the embedding:

* Python floats are modelled as `ℚ` (exact arithmetic; no claim under
  verification depends on rounding).
* Token-id sequences produced by the sentencepiece encoder are `List ℕ`.
* Randomness (softmax sampling of action indices, replay sampling) is
  modelled by oracles: the sampled indices and the sampled batch are inputs.
* The vectorized environment is external; each driver tick receives the
  environment's response (`EnvOut`) as an input, and the index array the
  driver sends to `env.step` is returned as an observable output.
* `torch` autograd state is not modelled; the optimizer-mutating tail of an
  update (`zero_grad`, `backward`, `clip_grad_norm_`, `step`) is recorded as
  an explicit event trace so that ordering claims are statable.
* Filesystem checkpoint state is modelled as a record of `Option` slots:
  `none` means reading the file raises.
-/

/-! ## Generic list helpers -/

theorem getD_set_ne {α : Type _} (l : List α) (i j : ℕ) (x d : α) (h : i ≠ j) :
    (l.set i x).getD j d = l.getD j d := by
  induction l generalizing i j with
  | nil => rfl
  | cons a t ih =>
    cases i with
    | zero => cases j with
      | zero => exact absurd rfl h
      | succ j => rfl
    | succ i => cases j with
      | zero => rfl
      | succ j => simpa using ih i j (fun hc => h (by simpa using hc))

theorem getD_set_self {α : Type _} (l : List α) (i : ℕ) (x d : α) (h : i < l.length) :
    (l.set i x).getD i d = x := by
  induction l generalizing i with
  | nil => simp at h
  | cons a t ih =>
    cases i with
    | zero => rfl
    | succ i => simpa using ih i (by simpa using h)

theorem getD_map_of_lt {α β : Type _} (f : α → β) (l : List α) (j : ℕ) (d : α)
    (h : j < l.length) : (l.map f).getD j (f d) = f (l.getD j d) := by
  induction l generalizing j with
  | nil => simp at h
  | cons a t ih =>
    cases j with
    | zero => rfl
    | succ j => simpa using ih j (by simpa using h)

theorem getD_zipWith_of_lt {α β γ : Type _} (f : α → β → γ) (l₁ : List α) (l₂ : List β)
    (j : ℕ) (d₁ : α) (d₂ : β) (h₁ : j < l₁.length) (h₂ : j < l₂.length) :
    (List.zipWith f l₁ l₂).getD j (f d₁ d₂) = f (l₁.getD j d₁) (l₂.getD j d₂) := by
  induction l₁ generalizing l₂ j with
  | nil => simp at h₁
  | cons a t ih =>
    cases l₂ with
    | nil => simp at h₂
    | cons b u =>
      cases j with
      | zero => rfl
      | succ j => simpa using ih u j (by simpa using h₁) (by simpa using h₂)

theorem length_filterMap_ite {α β : Type _} (p : α → Bool) (f : α → β) (l : List α) :
    (l.filterMap (fun i => if p i then some (f i) else none)).length = l.countP p := by
  induction l with
  | nil => rfl
  | cons a t ih =>
    by_cases h : p a
    · simp [List.filterMap_cons, h, ih, List.countP_cons, Nat.add_comm]
    · simp [List.filterMap_cons, h, ih, List.countP_cons]

/-- Position of the entry produced for index `j` inside the block of entries
a tick appends: among `0, …, n-1` the entries are emitted in index order, so
the entry for `j` sits after the entries of the smaller indexes satisfying
the flag. -/
theorem filterMap_range_get (p : ℕ → Bool) {β : Type _} (f : ℕ → β) (n j : ℕ)
    (hj : j < n) (hp : p j = true) :
    ((List.range n).filterMap (fun i => if p i then some (f i) else none)).get?
      ((List.range j).countP p) = some (f j) := by
  induction n with
  | zero => omega
  | succ n ih =>
    rw [List.range_succ, List.filterMap_append]
    rcases Nat.lt_or_ge j n with hlt | hge
    · have hmem := ih hlt
      have hlen : (List.range j).countP p <
          ((List.range n).filterMap (fun i => if p i then some (f i) else none)).length := by
        rcases List.get?_eq_some.mp hmem with ⟨h, _⟩
        exact h
      rw [List.get?_append hlen]
      exact hmem
    · have hj' : j = n := by omega
      subst hj'
      have hcnt : ((List.range j).filterMap
          (fun i => if p i then some (f i) else none)).length = (List.range j).countP p :=
        length_filterMap_ite p f _
      rw [List.get?_append_right (by omega)]
      simp [hcnt, hp]

theorem foldl_take_append {α : Type _} (l₁ l₂ : List α) (n : ℕ) (h : l₂.length = n) :
    (l₁ ++ l₂).take ((l₁ ++ l₂).length - n) = l₁ := by
  subst h
  rw [List.length_append, Nat.add_sub_cancel]
  exact List.take_left l₁ l₂

/-! ## Data model: transitions and the replay memory

`Transition` mirrors the tuple pushed by `DRRNAgent.observe`
(`drrn.py`, lines 87-88): `(state, act, rew, next_state, next_acts, done)`.
States and actions are sentencepiece token-id sequences. -/

abbrev TokenIds := List ℕ

abbrev Desc := List String

structure Transition where
  state : TokenIds
  act : TokenIds
  reward : ℚ
  next_state : TokenIds
  next_acts : List TokenIds
  done : Bool
deriving DecidableEq, Repr

/-- Modelled from the spec: the class `PrioritizedReplayMemory` lives in
`experiments/agents/drrn/utils/memory.py`, which is not part of the provided
sources; only its constructor call and `push`/`sample`/`len` call sites
appear in `drrn.py`. Following spec section 4.1 and the data-model section,
the memory holds two independently capacity-bounded pools (priority and
non-priority); `push(is_priority, …)` inserts into the pool selected by the
flag, evicting that pool's oldest entry (FIFO) when it is full, and `len()`
reports the total across both pools. -/
structure PrioritizedReplayMemory where
  priorityCapacity : ℕ
  nonPriorityCapacity : ℕ
  priority_fraction : ℚ
  priorityPool : List Transition
  nonPriorityPool : List Transition
deriving DecidableEq, Repr

/-- Modelled from the spec: FIFO insertion into one pool — when the pool is
at capacity the oldest (front) element is evicted before appending. -/
def pushPool (cap : ℕ) (pool : List Transition) (tr : Transition) : List Transition :=
  if pool.length < cap then pool ++ [tr] else pool.drop 1 ++ [tr]

/-- Modelled from the spec: `push(is_priority, state, act, rew, next_state,
next_acts, done)` routes the transition to the pool selected by the flag. -/
def PrioritizedReplayMemory.push (m : PrioritizedReplayMemory) (is_priority : Bool)
    (tr : Transition) : PrioritizedReplayMemory :=
  if is_priority then
    { m with priorityPool := pushPool m.priorityCapacity m.priorityPool tr }
  else
    { m with nonPriorityPool := pushPool m.nonPriorityCapacity m.nonPriorityPool tr }

/-- Modelled from the spec: `len()` reports total transitions across both
pools. -/
def memLen (m : PrioritizedReplayMemory) : ℕ :=
  m.priorityPool.length + m.nonPriorityPool.length

/-- The default value of the `priority_fraction` keyword of
`DRRNAgent.__init__` (`drrn.py`, line 37). -/
def drrn_default_priority_fraction : ℚ := 0

/-- The replay memory constructed in `DRRNAgent.__init__` (`drrn.py`, lines
46-47): both pools start empty; the per-pool capacity split is not described
by the spec, so each pool is simply bounded by the configured size. -/
def initDRRNMemory (memory_size : ℕ) (priority_fraction : ℚ) : PrioritizedReplayMemory :=
  { priorityCapacity := memory_size
    nonPriorityCapacity := memory_size
    priority_fraction := priority_fraction
    priorityPool := []
    nonPriorityPool := [] }

namespace DRRNAgent

/-- `DRRNAgent.observe` (`drrn.py`, lines 87-88): pushes the transition with
the priority flag hard-coded to `False`. -/
def observe (m : PrioritizedReplayMemory) (state : TokenIds) (act : TokenIds)
    (rew : ℚ) (next_state : TokenIds) (next_acts : List TokenIds) (done : Bool) :
    PrioritizedReplayMemory :=
  m.push false ⟨state, act, rew, next_state, next_acts, done⟩

end DRRNAgent

/-! ## DRRN update engine (`DRRNAgent.update`, `drrn.py` lines 109-138) -/

/-- Elementwise Huber term of `torch.nn.functional.smooth_l1_loss` with the
default `beta = 1.0`. -/
def huber (x : ℚ) : ℚ := if |x| < 1 then x ^ 2 / 2 else |x| - 1 / 2

/-- `F.smooth_l1_loss(input, target)` with the default mean reduction. -/
def smooth_l1_loss (input target : List ℚ) : ℚ :=
  (List.zipWith (fun p t => huber (p - t)) input target).sum / (input.length : ℚ)

/-- `tensor.max()` on the per-candidate value vector (nonempty in any run of
the program; `0` is an arbitrary value for the empty case on which `torch`
would raise). -/
def maxD : List ℚ → ℚ
  | [] => 0
  | x :: xs => xs.foldl max x

theorem foldl_max_choice (ys : List ℚ) : ∀ a, ys.foldl max a = a ∨ ys.foldl max a ∈ ys := by
  induction ys with
  | nil => intro a; left; rfl
  | cons y t ih =>
    intro a
    rw [List.foldl_cons]
    rcases ih (max a y) with hc | hc
    · rcases max_choice a y with hm | hm
      · left; rw [hc, hm]
      · right; rw [hc, hm]; exact List.mem_cons_self y t
    · right; exact List.mem_cons_of_mem y hc

theorem le_foldl_max_init (ys : List ℚ) : ∀ a, a ≤ ys.foldl max a := by
  induction ys with
  | nil => intro a; exact le_refl a
  | cons y t ih =>
    intro a
    rw [List.foldl_cons]
    exact le_trans (le_max_left a y) (ih (max a y))

theorem mem_le_foldl_max (ys : List ℚ) : ∀ a, ∀ w ∈ ys, w ≤ ys.foldl max a := by
  induction ys with
  | nil => intro a w hw; simp at hw
  | cons y t ih =>
    intro a w hw
    rw [List.foldl_cons]
    rcases List.mem_cons.mp hw with hc | hc
    · subst hc
      exact le_trans (le_max_right a w) (le_foldl_max_init t (max a w))
    · exact ih (max a y) w hc

theorem maxD_mem (l : List ℚ) (h : l ≠ []) : maxD l ∈ l := by
  match l with
  | x :: xs =>
    rcases foldl_max_choice xs x with hc | hc
    · rw [maxD, hc]; exact List.mem_cons_self x xs
    · rw [maxD]; exact List.mem_cons_of_mem x hc

theorem le_maxD (l : List ℚ) (v : ℚ) (hv : v ∈ l) : v ≤ maxD l := by
  match l with
  | x :: xs =>
    rcases List.mem_cons.mp hv with hc | hc
    · subst hc; rw [maxD]; exact le_foldl_max_init xs v
    · rw [maxD]; exact mem_le_foldl_max xs x v hc

/-- The loss expression computed by `DRRNAgent.update` on a sampled batch
(`drrn.py` lines 113-132), translated statement by statement:
per-transition max over next-candidate Q-values, zeroing by `(1 - done)`,
bootstrapped targets, Q-values of the taken action presented as the sole
candidate (the per-example tensors are concatenated by `torch.cat`, here
`List.join`), and the Huber loss between them. -/
def updateLoss (gamma : ℚ) (network : TokenIds → List TokenIds → List ℚ)
    (batch : List Transition) : ℚ :=
  let next_qvals := batch.map (fun t => maxD (network t.next_state t.next_acts))
  let next_qvals := List.zipWith
    (fun v t => v * (1 - (if t.done then (1 : ℚ) else 0))) next_qvals batch
  let targets := List.zipWith (fun t v => t.reward + gamma * v) batch next_qvals
  let qvals := (batch.map (fun t => network t.state [t.act])).join
  smooth_l1_loss qvals targets

/-- The optimizer-mutating side effects at the tail of `DRRNAgent.update`
(`drrn.py` lines 133-137), recorded as an ordered event trace. -/
inductive OptimEvent
  | zero_grad
  | backward
  | clip_grad_norm (bound : ℚ)
  | adam_step
deriving DecidableEq, Repr

namespace DRRNAgent

/-- `DRRNAgent.update` (`drrn.py` lines 109-138). Returns `none` (Python
`return` with no value) without sampling or touching the optimizer when the
memory holds fewer transitions than one batch; otherwise samples a batch
(`sample` is the randomness oracle of `memory.sample`), computes the Huber
loss, runs `zero_grad`/`backward`/`clip_grad_norm_(clip)`/`optimizer.step`
in that order, and returns the loss. -/
def update (gamma clip : ℚ) (batch_size : ℕ)
    (network : TokenIds → List TokenIds → List ℚ)
    (memory : PrioritizedReplayMemory) (sample : ℕ → List Transition) :
    Option ℚ × List OptimEvent :=
  if memLen memory < batch_size then (none, [])
  else
    let transitions := sample batch_size
    let loss := updateLoss gamma network transitions
    (some loss, [OptimEvent.zero_grad, OptimEvent.backward,
                 OptimEvent.clip_grad_norm clip, OptimEvent.adam_step])

end DRRNAgent

/-! ## PPO update engine: clipped surrogate objective
(`PPOUpdater.perform_update`, `train_language_agent.py` lines 260-266)

`torch.exp` is the only transcendental function on this path; it is passed
as an explicit parameter `e` of the embedding (its defining property used by
the spec claim is `e 0 = 1`). Lists are per-sample values of the batch. -/

def torch_clamp (x lo hi : ℚ) : ℚ := max lo (min x hi)

def listMean (l : List ℚ) : ℚ := l.sum / (l.length : ℚ)

/-- `ratio = torch.exp(log_prob - sb['log_prob'])` (line 263). -/
def ppoRatio (e : ℚ → ℚ) (log_prob old_log_prob : List ℚ) : List ℚ :=
  List.zipWith (fun lp olp => e (lp - olp)) log_prob old_log_prob

/-- `surr1 = ratio * sb['advantage']` (line 264). -/
def ppoSurr1 (e : ℚ → ℚ) (log_prob old_log_prob advantage : List ℚ) : List ℚ :=
  List.zipWith (· * ·) (ppoRatio e log_prob old_log_prob) advantage

/-- `surr2 = torch.clamp(ratio, 1 - clip_eps, 1 + clip_eps) * sb['advantage']`
(line 265). -/
def ppoSurr2 (e : ℚ → ℚ) (log_prob old_log_prob advantage : List ℚ) (clip_eps : ℚ) :
    List ℚ :=
  List.zipWith (fun r a => torch_clamp r (1 - clip_eps) (1 + clip_eps) * a)
    (ppoRatio e log_prob old_log_prob) advantage

/-- `policy_loss = -torch.min(surr1, surr2).mean()` (line 266): elementwise
minimum, mean, negation. -/
def ppoPolicyLoss (e : ℚ → ℚ) (log_prob old_log_prob advantage : List ℚ)
    (clip_eps : ℚ) : ℚ :=
  -(listMean (List.zipWith min (ppoSurr1 e log_prob old_log_prob advantage)
      (ppoSurr2 e log_prob old_log_prob advantage clip_eps)))

/-! ## PPO checkpoint generations (`last` / `backup`)
(`PPOUpdater.perform_update`, `train_language_agent.py` lines 198-219 and
289-301)

The per-experiment checkpoint directory tree is modelled as four slots:
`last/model.checkpoint`, `last/optimizer.checkpoint`,
`backup/model.checkpoint`, `backup/optimizer.checkpoint`. A slot holding
`none` means reading that file raises (missing/corrupted). -/

structure PPOCkptStore (M O : Type) where
  last_model : Option M
  last_optim : Option O
  backup_model : Option M
  backup_optim : Option O
deriving DecidableEq, Repr

inductive CkptLoadError
  | backupLoadFailed
deriving DecidableEq, Repr

/-- The `load_fine_tuned_version` branch of `PPOUpdater.perform_update`
(lines 198-219): try to load `last/model.checkpoint` and then
`last/optimizer.checkpoint`; on any exception, load both files of the
`backup` generation (uncaught on failure) and then
`distutils.dir_util.copy_tree(backup, last)`. Returns the loaded
(model, optimizer) pair and the resulting directory state. -/
def loadFineTuned {M O : Type} (fs : PPOCkptStore M O) :
    Except CkptLoadError ((M × O) × PPOCkptStore M O) :=
  match fs.last_model, fs.last_optim with
  | some m, some o => Except.ok ((m, o), fs)
  | _, _ =>
    match fs.backup_model, fs.backup_optim with
    | some m, some o =>
      Except.ok ((m, o),
        { fs with last_model := fs.backup_model, last_optim := fs.backup_optim })
    | _, _ => Except.error CkptLoadError.backupLoadFailed

/-- One checkpoint-writing training update of `PPOUpdater.perform_update`
(lines 289-301, executed on the coordinator process when
`lm_server_update_first_call` holds): first
`copy_tree(last, backup)`, then overwrite both files of `last` with the
current model and optimizer states. -/
def saveCheckpointStep {M O : Type} (fs : PPOCkptStore M O) (m : M) (o : O) :
    PPOCkptStore M O :=
  let fs1 := { fs with backup_model := fs.last_model, backup_optim := fs.last_optim }
  { fs1 with last_model := some m, last_optim := some o }

namespace DRRNAgent

/-- `DRRNAgent.load` (`drrn.py` lines 277-286). The `try` block unpickles
`memory.pkl`, assigns it to `self.memory`, and loads
`optimizer.checkpoint` into the optimizer; any exception there is caught
and only printed, leaving whatever state had been installed so far.
`model.checkpoint` is then loaded outside the `try`, so a failure there
propagates. `self_memory`/`self_optimizer` are the freshly initialized
buffer and optimizer the agent holds when `load` is entered; the three
`Except` arguments are the outcomes of reading the three files. -/
def load {Mem Opt Net E : Type} (self_memory : Mem) (self_optimizer : Opt)
    (memFile : Except E Mem) (optFile : Except E Opt) (netFile : Except E Net) :
    Except E (Mem × Opt × Net) :=
  let restored : Mem × Opt :=
    match memFile with
    | Except.error _ => (self_memory, self_optimizer)
    | Except.ok m =>
      match optFile with
      | Except.error _ => (m, self_optimizer)
      | Except.ok o => (m, o)
  match netFile with
  | Except.error e => Except.error e
  | Except.ok n => Except.ok (restored.1, restored.2, n)

end DRRNAgent

/-! ## Rollout driver (`DRRNAgent.update_parameters`, `drrn.py` lines 140-199)

The driver state mirrors the stateful fields of `DRRNAgent` touched by the
rollout loop; the immutable configuration is `AgentCtx`. `generatePrompt`
and `encode` (`generate_prompt` of the base agent and
`sp.EncodeAsIds`/`build_state`) are external text functions and enter the
context as abstract parameters. -/

/-- The `self.logs` dictionary initialized in `DRRNAgent.__init__`
(`drrn.py` lines 66-78). -/
structure Logs where
  return_per_episode : List ℚ
  reshaped_return_per_episode : List ℚ
  reshaped_return_bonus_per_episode : List ℚ
  num_frames_per_episode : List ℕ
  num_frames : ℕ
  episodes_done : ℕ
  entropy : ℚ
  policy_loss : ℚ
  value_loss : ℚ
  grad_norm : ℚ
  loss : ℚ
deriving DecidableEq, Repr

/-- The mutable per-environment rollout state of `DRRNAgent`:
`self.states`, `self.returns`, `self.reshaped_returns`,
`self.frames_per_episode`, `self.obs_queue`, `self.acts_queue`,
`self.logs`, `self.memory`, plus the `episodes_done` counter local to
`update_parameters` (threaded through the loop). -/
structure RolloutState where
  states : List TokenIds
  returns : List ℚ
  reshapedReturns : List ℚ
  framesPerEpisode : List ℕ
  obsQueue : List (List Desc)
  actsQueue : List (List String)
  logs : Logs
  memory : PrioritizedReplayMemory
  episodesDone : ℕ
deriving DecidableEq, Repr

/-- The fixed configuration of the agent: number of parallel environments,
per-environment candidate action texts (`self.subgoals`), their encodings
(`self.encoded_actions`), the reward-reshaping function, the prompt builder
and the tokenizer, the Q-network, and the hyperparameters used by
`update`. -/
structure AgentCtx where
  n_envs : ℕ
  subgoals : List (List String)
  encodedActions : List (List TokenIds)
  reshapeReward : ℚ → ℚ × ℚ
  generatePrompt : String → List String → List Desc → List String → String
  encode : String → TokenIds
  network : TokenIds → List TokenIds → List ℚ
  gamma : ℚ
  batchSize : ℕ
  clip : ℚ

/-- One batched response of `self.env.step`: `obs[j]['mission']`,
`rewards`, `dones`, `infos[j]['descriptions']`. -/
structure EnvOut where
  missions : List String
  rewards : List ℚ
  dones : List Bool
  descriptions : List Desc
deriving DecidableEq, Repr

/-- Per-tick oracle: the action indices drawn by `torch.multinomial` inside
`act`, and the environment's response to the step call. -/
structure TickOracle where
  sampleIdxs : List ℕ
  out : EnvOut
deriving DecidableEq, Repr

/-- `collections.deque(maxlen := m).append`: append and keep the last `m`
entries. -/
def dequeAppend {α : Type _} (maxlen : ℕ) (q : List α) (x : α) : List α :=
  let q1 := q ++ [x]
  q1.drop (q1.length - maxlen)

/-- The body of the `for j in range(self.n_envs)` loop of
`update_parameters` (`drrn.py` lines 153-171) for one index `j`:
accumulate the raw reward, the reshaped reward and the frame count, then
either flush/reset/clear (done) or extend the two history deques
(not done). -/
def bookkeepSlot (out : EnvOut) (actions : List String) (reshaped : List ℚ)
    (s : RolloutState) (j : ℕ) : RolloutState :=
  let s1 : RolloutState :=
    { s with
      returns := s.returns.set j (s.returns.getD j 0 + out.rewards.getD j 0)
      reshapedReturns :=
        s.reshapedReturns.set j (s.reshapedReturns.getD j 0 + reshaped.getD j 0)
      framesPerEpisode := s.framesPerEpisode.set j (s.framesPerEpisode.getD j 0 + 1) }
  if out.dones.getD j false then
    { s1 with
      episodesDone := s1.episodesDone + 1
      logs := { s1.logs with
        num_frames_per_episode :=
          s1.logs.num_frames_per_episode ++ [s1.framesPerEpisode.getD j 0]
        return_per_episode := s1.logs.return_per_episode ++ [s1.returns.getD j 0]
        reshaped_return_per_episode :=
          s1.logs.reshaped_return_per_episode ++ [s1.reshapedReturns.getD j 0]
        reshaped_return_bonus_per_episode :=
          s1.logs.reshaped_return_bonus_per_episode ++ [s1.reshapedReturns.getD j 0] }
      framesPerEpisode := s1.framesPerEpisode.set j 0
      returns := s1.returns.set j 0
      reshapedReturns := s1.reshapedReturns.set j 0
      obsQueue := s1.obsQueue.set j []
      actsQueue := s1.actsQueue.set j [] }
  else
    { s1 with
      actsQueue :=
        s1.actsQueue.set j (dequeAppend 2 (s1.actsQueue.getD j []) (actions.getD j ""))
      obsQueue :=
        s1.obsQueue.set j
          (dequeAppend 3 (s1.obsQueue.getD j []) (out.descriptions.getD j [])) }

/-- The whole `for j in range(self.n_envs)` loop. -/
def bookkeepAll (n : ℕ) (out : EnvOut) (actions : List String) (reshaped : List ℚ)
    (s : RolloutState) : RolloutState :=
  (List.range n).foldl (fun st j => bookkeepSlot out actions reshaped st j) s

/-- The `zip(self.states, action_ids, reshaped_rewards, next_states,
self.encoded_actions, dones)` of `drrn.py` lines 178-179, materialized as
the list of transitions handed to `observe` (truncating at the shortest
list, as `zip` does). -/
def zipTransitions : List TokenIds → List TokenIds → List ℚ → List TokenIds →
    List (List TokenIds) → List Bool → List Transition
  | st :: sts, a :: ax, r :: rs, ns :: nss, pa :: pas, d :: ds =>
    ⟨st, a, r, ns, pa, d⟩ :: zipTransitions sts ax rs nss pas ds
  | _, _, _, _, _, _ => []

/-- The observe loop of `drrn.py` lines 178-180: push every zipped
transition with `observe` (priority flag `False`). -/
def observeAll (m : PrioritizedReplayMemory) (sts ax : List TokenIds) (rs : List ℚ)
    (nss : List TokenIds) (pas : List (List TokenIds)) (ds : List Bool) :
    PrioritizedReplayMemory :=
  (zipTransitions sts ax rs nss pas ds).foldl
    (fun m tr => DRRNAgent.observe m tr.state tr.act tr.reward tr.next_state
      tr.next_acts tr.done) m

/-- One iteration of the rollout loop of `update_parameters`
(`drrn.py` lines 142-181): sample action indices (oracle), derive
`action_ids` and `actions`, clamp the index array if the candidate list of
environment 0 has more than 6 entries, step the environment (its response
`t.out` is the oracle), reshape rewards, run the bookkeeping loop, build
the next prompts/states from the updated queues, store all transitions via
`observe`, and advance `self.states`. Returns the new state together with
the index array that was sent to `env.step`. -/
def rolloutTick (c : AgentCtx) (s : RolloutState) (t : TickOracle) :
    RolloutState × List ℕ :=
  let action_idxs := t.sampleIdxs
  let action_ids :=
    List.zipWith (fun acts idx => acts.getD idx []) c.encodedActions action_idxs
  let actions := List.zipWith (fun sgs idx => sgs.getD idx "") c.subgoals action_idxs
  let real_a :=
    if 6 < (c.subgoals.headD []).length then
      action_idxs.map (fun i => if 6 < i then 6 else i)
    else action_idxs
  let reshaped := t.out.rewards.map (fun r => (c.reshapeReward r).1)
  let s1 := bookkeepAll c.n_envs t.out actions reshaped s
  let next_states := (List.range c.n_envs).map (fun j =>
    c.encode (c.generatePrompt (t.out.missions.getD j "") (c.subgoals.getD j [])
      (s1.obsQueue.getD j []) (s1.actsQueue.getD j [])))
  let mem1 := observeAll s1.memory s.states action_ids reshaped next_states
    c.encodedActions t.out.dones
  ({ s1 with memory := mem1, states := next_states }, real_a)

/-- The full rollout loop: fold `rolloutTick` over the per-iteration
oracles (one per iteration of `range(self.max_steps // self.n_envs)`). -/
def rolloutRun (c : AgentCtx) (s : RolloutState) (ticks : List TickOracle) :
    RolloutState :=
  ticks.foldl (fun st t => (rolloutTick c st t).1) s

/-- Python's `v[:-n]` for a nonnegative `n`: empty when `n = 0`
(`v[:-0]` is `v[:0]`), otherwise all but the last `n` entries. -/
def pySliceDropLast {α : Type _} (v : List α) (n : ℕ) : List α :=
  if n = 0 then [] else v.take (v.length - n)

namespace DRRNAgent

/-- `DRRNAgent.update_parameters` (`drrn.py` lines 140-199): run the
rollout loop, call `update`, overwrite `self.logs['loss']` if a loss was
returned, and build the returned logs dictionary — list-valued entries are
copied as `v[:-episodes_done]`, scalar entries verbatim, and
`episodes_done` is set to the number of episodes finished this cycle.
Returns (returned logs, new agent state, result of `update`). The
periodic `self.save()` call performs filesystem writes only and does not
affect any returned value. -/
def update_parameters (c : AgentCtx) (s0 : RolloutState) (ticks : List TickOracle)
    (sample : ℕ → List Transition) :
    Logs × RolloutState × (Option ℚ × List OptimEvent) :=
  let s := rolloutRun c { s0 with episodesDone := 0 } ticks
  let p := update c.gamma c.clip c.batchSize c.network s.memory sample
  let logsState := match p.1 with
    | some l => { s.logs with loss := l }
    | none => s.logs
  let ed := s.episodesDone
  let ret : Logs :=
    { return_per_episode := pySliceDropLast logsState.return_per_episode ed
      reshaped_return_per_episode :=
        pySliceDropLast logsState.reshaped_return_per_episode ed
      reshaped_return_bonus_per_episode :=
        pySliceDropLast logsState.reshaped_return_bonus_per_episode ed
      num_frames_per_episode := pySliceDropLast logsState.num_frames_per_episode ed
      num_frames := logsState.num_frames
      episodes_done := ed
      entropy := logsState.entropy
      policy_loss := logsState.policy_loss
      value_loss := logsState.value_loss
      grad_norm := logsState.grad_norm
      loss := logsState.loss }
  (ret, { s with logs := logsState }, p)

end DRRNAgent

/-- Lengths of the per-environment accumulator lists (invariant of the
driver: all have `n_envs` entries, `drrn.py` lines 57-81). -/
def SlotLen (s : RolloutState) (n : ℕ) : Prop :=
  s.returns.length = n ∧ s.reshapedReturns.length = n ∧
  s.framesPerEpisode.length = n ∧ s.obsQueue.length = n ∧ s.actsQueue.length = n

instance (s : RolloutState) (n : ℕ) : Decidable (SlotLen s n) := by
  unfold SlotLen; infer_instance

/-! ## Lemmas about the bookkeeping loop -/

theorem bookkeepSlot_scalars (out : EnvOut) (actions : List String) (reshaped : List ℚ)
    (s : RolloutState) (j : ℕ) :
    (bookkeepSlot out actions reshaped s j).memory = s.memory ∧
    (bookkeepSlot out actions reshaped s j).states = s.states ∧
    (bookkeepSlot out actions reshaped s j).logs.num_frames = s.logs.num_frames ∧
    (bookkeepSlot out actions reshaped s j).logs.episodes_done = s.logs.episodes_done ∧
    (bookkeepSlot out actions reshaped s j).logs.entropy = s.logs.entropy ∧
    (bookkeepSlot out actions reshaped s j).logs.policy_loss = s.logs.policy_loss ∧
    (bookkeepSlot out actions reshaped s j).logs.value_loss = s.logs.value_loss ∧
    (bookkeepSlot out actions reshaped s j).logs.grad_norm = s.logs.grad_norm ∧
    (bookkeepSlot out actions reshaped s j).logs.loss = s.logs.loss := by
  simp only [bookkeepSlot]
  by_cases hd : out.dones.getD j false
  · rw [if_pos hd]
    exact ⟨rfl, rfl, rfl, rfl, rfl, rfl, rfl, rfl, rfl⟩
  · rw [if_neg hd]
    exact ⟨rfl, rfl, rfl, rfl, rfl, rfl, rfl, rfl, rfl⟩

theorem bookkeepSlot_preserve (out : EnvOut) (actions : List String) (reshaped : List ℚ)
    (s : RolloutState) (i j : ℕ) (h : i ≠ j) :
    (bookkeepSlot out actions reshaped s i).returns.getD j 0 = s.returns.getD j 0 ∧
    (bookkeepSlot out actions reshaped s i).reshapedReturns.getD j 0 =
      s.reshapedReturns.getD j 0 ∧
    (bookkeepSlot out actions reshaped s i).framesPerEpisode.getD j 0 =
      s.framesPerEpisode.getD j 0 ∧
    (bookkeepSlot out actions reshaped s i).obsQueue.getD j [] = s.obsQueue.getD j [] ∧
    (bookkeepSlot out actions reshaped s i).actsQueue.getD j [] =
      s.actsQueue.getD j [] := by
  simp only [bookkeepSlot]
  by_cases hd : out.dones.getD i false
  · rw [if_pos hd]
    dsimp only
    refine ⟨?_, ?_, ?_, ?_, ?_⟩
    · rw [getD_set_ne _ _ _ _ _ h, getD_set_ne _ _ _ _ _ h]
    · rw [getD_set_ne _ _ _ _ _ h, getD_set_ne _ _ _ _ _ h]
    · rw [getD_set_ne _ _ _ _ _ h, getD_set_ne _ _ _ _ _ h]
    · rw [getD_set_ne _ _ _ _ _ h]
    · rw [getD_set_ne _ _ _ _ _ h]
  · rw [if_neg hd]
    dsimp only
    refine ⟨?_, ?_, ?_, ?_, ?_⟩ <;> rw [getD_set_ne _ _ _ _ _ h]

theorem bookkeepSlot_slotLen (out : EnvOut) (actions : List String) (reshaped : List ℚ)
    (s : RolloutState) (j n : ℕ) (h : SlotLen s n) :
    SlotLen (bookkeepSlot out actions reshaped s j) n := by
  obtain ⟨h1, h2, h3, h4, h5⟩ := h
  simp only [bookkeepSlot]
  by_cases hd : out.dones.getD j false
  · rw [if_pos hd]
    simp only [SlotLen, List.length_set]
    exact ⟨h1, h2, h3, h4, h5⟩
  · rw [if_neg hd]
    simp only [SlotLen, List.length_set]
    exact ⟨h1, h2, h3, h4, h5⟩

theorem bookkeepSlot_done (out : EnvOut) (actions : List String) (reshaped : List ℚ)
    (s : RolloutState) (j n : ℕ) (hn : SlotLen s n) (hj : j < n)
    (hd : out.dones.getD j false = true) :
    (bookkeepSlot out actions reshaped s j).returns.getD j 0 = 0 ∧
    (bookkeepSlot out actions reshaped s j).reshapedReturns.getD j 0 = 0 ∧
    (bookkeepSlot out actions reshaped s j).framesPerEpisode.getD j 0 = 0 ∧
    (bookkeepSlot out actions reshaped s j).obsQueue.getD j [] = [] ∧
    (bookkeepSlot out actions reshaped s j).actsQueue.getD j [] = [] ∧
    (bookkeepSlot out actions reshaped s j).logs.return_per_episode =
      s.logs.return_per_episode ++ [s.returns.getD j 0 + out.rewards.getD j 0] ∧
    (bookkeepSlot out actions reshaped s j).logs.num_frames_per_episode =
      s.logs.num_frames_per_episode ++ [s.framesPerEpisode.getD j 0 + 1] ∧
    (bookkeepSlot out actions reshaped s j).logs.reshaped_return_per_episode =
      s.logs.reshaped_return_per_episode ++
        [s.reshapedReturns.getD j 0 + reshaped.getD j 0] ∧
    (bookkeepSlot out actions reshaped s j).logs.reshaped_return_bonus_per_episode =
      s.logs.reshaped_return_bonus_per_episode ++
        [s.reshapedReturns.getD j 0 + reshaped.getD j 0] ∧
    (bookkeepSlot out actions reshaped s j).episodesDone = s.episodesDone + 1 := by
  obtain ⟨h1, h2, h3, h4, h5⟩ := hn
  simp only [bookkeepSlot]
  rw [if_pos hd]
  dsimp only
  refine ⟨?_, ?_, ?_, ?_, ?_, ?_, ?_, ?_, ?_, rfl⟩
  · exact getD_set_self _ _ _ _ (by rw [List.length_set]; omega)
  · exact getD_set_self _ _ _ _ (by rw [List.length_set]; omega)
  · exact getD_set_self _ _ _ _ (by rw [List.length_set]; omega)
  · exact getD_set_self _ _ _ _ (by omega)
  · exact getD_set_self _ _ _ _ (by omega)
  · rw [getD_set_self _ _ _ _ (by omega)]
  · rw [getD_set_self _ _ _ _ (by omega)]
  · rw [getD_set_self _ _ _ _ (by omega)]
  · rw [getD_set_self _ _ _ _ (by omega)]

theorem bookkeepSlot_notdone (out : EnvOut) (actions : List String) (reshaped : List ℚ)
    (s : RolloutState) (j n : ℕ) (hn : SlotLen s n) (hj : j < n)
    (hd : out.dones.getD j false = false) :
    (bookkeepSlot out actions reshaped s j).returns.getD j 0 =
      s.returns.getD j 0 + out.rewards.getD j 0 ∧
    (bookkeepSlot out actions reshaped s j).reshapedReturns.getD j 0 =
      s.reshapedReturns.getD j 0 + reshaped.getD j 0 ∧
    (bookkeepSlot out actions reshaped s j).framesPerEpisode.getD j 0 =
      s.framesPerEpisode.getD j 0 + 1 ∧
    (bookkeepSlot out actions reshaped s j).logs = s.logs ∧
    (bookkeepSlot out actions reshaped s j).episodesDone = s.episodesDone := by
  obtain ⟨h1, h2, h3, h4, h5⟩ := hn
  simp only [bookkeepSlot]
  rw [if_neg (by rw [hd]; exact Bool.false_ne_true)]
  dsimp only
  refine ⟨?_, ?_, ?_, rfl, rfl⟩
  · exact getD_set_self _ _ _ _ (by omega)
  · exact getD_set_self _ _ _ _ (by omega)
  · exact getD_set_self _ _ _ _ (by omega)

/-- The bookkeeping loop truncated after its first `m` iterations (the loop
itself is `bkFold` at `m = n_envs`). -/
def bkFold (out : EnvOut) (actions : List String) (reshaped : List ℚ) (m : ℕ)
    (s : RolloutState) : RolloutState :=
  (List.range m).foldl (fun st j => bookkeepSlot out actions reshaped st j) s

theorem bkFold_succ (out : EnvOut) (actions : List String) (reshaped : List ℚ)
    (m : ℕ) (s : RolloutState) :
    bkFold out actions reshaped (m + 1) s =
      bookkeepSlot out actions reshaped (bkFold out actions reshaped m s) m := by
  unfold bkFold
  rw [List.range_succ, List.foldl_append]
  rfl

theorem bookkeepAll_eq_bkFold (n : ℕ) (out : EnvOut) (actions : List String)
    (reshaped : List ℚ) (s : RolloutState) :
    bookkeepAll n out actions reshaped s = bkFold out actions reshaped n s := rfl

theorem bkFold_scalars (out : EnvOut) (actions : List String) (reshaped : List ℚ)
    (m : ℕ) (s : RolloutState) :
    (bkFold out actions reshaped m s).memory = s.memory ∧
    (bkFold out actions reshaped m s).states = s.states ∧
    (bkFold out actions reshaped m s).logs.num_frames = s.logs.num_frames ∧
    (bkFold out actions reshaped m s).logs.episodes_done = s.logs.episodes_done ∧
    (bkFold out actions reshaped m s).logs.entropy = s.logs.entropy ∧
    (bkFold out actions reshaped m s).logs.policy_loss = s.logs.policy_loss ∧
    (bkFold out actions reshaped m s).logs.value_loss = s.logs.value_loss ∧
    (bkFold out actions reshaped m s).logs.grad_norm = s.logs.grad_norm ∧
    (bkFold out actions reshaped m s).logs.loss = s.logs.loss := by
  induction m with
  | zero => exact ⟨rfl, rfl, rfl, rfl, rfl, rfl, rfl, rfl, rfl⟩
  | succ m ih =>
    rw [bkFold_succ]
    have hs := bookkeepSlot_scalars out actions reshaped (bkFold out actions reshaped m s) m
    exact ⟨hs.1.trans ih.1, hs.2.1.trans ih.2.1, hs.2.2.1.trans ih.2.2.1,
      hs.2.2.2.1.trans ih.2.2.2.1, hs.2.2.2.2.1.trans ih.2.2.2.2.1,
      hs.2.2.2.2.2.1.trans ih.2.2.2.2.2.1, hs.2.2.2.2.2.2.1.trans ih.2.2.2.2.2.2.1,
      hs.2.2.2.2.2.2.2.1.trans ih.2.2.2.2.2.2.2.1,
      hs.2.2.2.2.2.2.2.2.trans ih.2.2.2.2.2.2.2.2⟩

theorem bkFold_slotLen (out : EnvOut) (actions : List String) (reshaped : List ℚ)
    (m n : ℕ) (s : RolloutState) (h : SlotLen s n) :
    SlotLen (bkFold out actions reshaped m s) n := by
  induction m with
  | zero => exact h
  | succ m ih =>
    rw [bkFold_succ]
    exact bookkeepSlot_slotLen out actions reshaped _ m n ih

theorem bkFold_preserve_ge (out : EnvOut) (actions : List String) (reshaped : List ℚ)
    (s : RolloutState) (m k : ℕ) (hk : m ≤ k) :
    (bkFold out actions reshaped m s).returns.getD k 0 = s.returns.getD k 0 ∧
    (bkFold out actions reshaped m s).reshapedReturns.getD k 0 =
      s.reshapedReturns.getD k 0 ∧
    (bkFold out actions reshaped m s).framesPerEpisode.getD k 0 =
      s.framesPerEpisode.getD k 0 ∧
    (bkFold out actions reshaped m s).obsQueue.getD k [] = s.obsQueue.getD k [] ∧
    (bkFold out actions reshaped m s).actsQueue.getD k [] = s.actsQueue.getD k [] := by
  induction m with
  | zero => exact ⟨rfl, rfl, rfl, rfl, rfl⟩
  | succ m ih =>
    rw [bkFold_succ]
    have ihm := ih (by omega)
    have hp := bookkeepSlot_preserve out actions reshaped
      (bkFold out actions reshaped m s) m k (by omega)
    exact ⟨hp.1.trans ihm.1, hp.2.1.trans ihm.2.1, hp.2.2.1.trans ihm.2.2.1,
      hp.2.2.2.1.trans ihm.2.2.2.1, hp.2.2.2.2.trans ihm.2.2.2.2⟩

theorem bkFold_done_slot (out : EnvOut) (actions : List String) (reshaped : List ℚ)
    (s : RolloutState) (m n j : ℕ) (hS : SlotLen s n) (hmn : m ≤ n) (hj : j < m)
    (hd : out.dones.getD j false = true) :
    (bkFold out actions reshaped m s).returns.getD j 0 = 0 ∧
    (bkFold out actions reshaped m s).reshapedReturns.getD j 0 = 0 ∧
    (bkFold out actions reshaped m s).framesPerEpisode.getD j 0 = 0 ∧
    (bkFold out actions reshaped m s).obsQueue.getD j [] = [] ∧
    (bkFold out actions reshaped m s).actsQueue.getD j [] = [] := by
  induction m with
  | zero => omega
  | succ m ih =>
    rw [bkFold_succ]
    rcases Nat.lt_or_ge j m with hlt | hge
    · have ihm := ih (by omega) hlt
      have hp := bookkeepSlot_preserve out actions reshaped
        (bkFold out actions reshaped m s) m j (by omega)
      exact ⟨hp.1.trans ihm.1, hp.2.1.trans ihm.2.1, hp.2.2.1.trans ihm.2.2.1,
        hp.2.2.2.1.trans ihm.2.2.2.1, hp.2.2.2.2.trans ihm.2.2.2.2⟩
    · have hj' : j = m := by omega
      subst hj'
      have hd' := bookkeepSlot_done out actions reshaped
        (bkFold out actions reshaped j s) j n
        (bkFold_slotLen out actions reshaped j n s hS) (by omega) hd
      exact ⟨hd'.1, hd'.2.1, hd'.2.2.1, hd'.2.2.2.1, hd'.2.2.2.2.1⟩

theorem bkFold_notdone_slot (out : EnvOut) (actions : List String) (reshaped : List ℚ)
    (s : RolloutState) (m n j : ℕ) (hS : SlotLen s n) (hmn : m ≤ n) (hj : j < m)
    (hd : out.dones.getD j false = false) :
    (bkFold out actions reshaped m s).returns.getD j 0 =
      s.returns.getD j 0 + out.rewards.getD j 0 ∧
    (bkFold out actions reshaped m s).reshapedReturns.getD j 0 =
      s.reshapedReturns.getD j 0 + reshaped.getD j 0 ∧
    (bkFold out actions reshaped m s).framesPerEpisode.getD j 0 =
      s.framesPerEpisode.getD j 0 + 1 := by
  induction m with
  | zero => omega
  | succ m ih =>
    rw [bkFold_succ]
    rcases Nat.lt_or_ge j m with hlt | hge
    · have ihm := ih (by omega) hlt
      have hp := bookkeepSlot_preserve out actions reshaped
        (bkFold out actions reshaped m s) m j (by omega)
      exact ⟨hp.1.trans ihm.1, hp.2.1.trans ihm.2.1, hp.2.2.1.trans ihm.2.2⟩
    · have hj' : j = m := by omega
      subst hj'
      have hpre := bkFold_preserve_ge out actions reshaped s j j (le_refl j)
      have hnd := bookkeepSlot_notdone out actions reshaped
        (bkFold out actions reshaped j s) j n
        (bkFold_slotLen out actions reshaped j n s hS) (by omega) hd
      exact ⟨hnd.1.trans (by rw [hpre.1]), hnd.2.1.trans (by rw [hpre.2.1]),
        hnd.2.2.1.trans (by rw [hpre.2.2.1])⟩

theorem filterMap_ite_singleton_true {β : Type _} (p : ℕ → Bool) (f : ℕ → β) (m : ℕ)
    (h : p m = true) :
    List.filterMap (fun i => if p i then some (f i) else none) [m] = [f m] := by
  simp [h]

theorem filterMap_ite_singleton_false {β : Type _} (p : ℕ → Bool) (f : ℕ → β) (m : ℕ)
    (h : p m = false) :
    List.filterMap (fun i => if p i then some (f i) else none) [m] = [] := by
  simp [h]

theorem countP_singleton {α : Type _} (p : α → Bool) (a : α) :
    List.countP p [a] = if p a then 1 else 0 := by
  simp [List.countP_cons]

/-- Value-level characterization of the log growth of one full bookkeeping
loop: each done slot appends, in index order, its flushed return
(accumulator plus the current raw reward) and its frame count (accumulator
plus one); `episodes_done` grows by the number of done slots. -/
theorem bkFold_logs_block (out : EnvOut) (actions : List String) (reshaped : List ℚ)
    (s : RolloutState) (m n : ℕ) (hS : SlotLen s n) (hmn : m ≤ n) :
    (bkFold out actions reshaped m s).logs.return_per_episode =
      s.logs.return_per_episode ++ (List.range m).filterMap (fun i =>
        if out.dones.getD i false then
          some (s.returns.getD i 0 + out.rewards.getD i 0) else none) ∧
    (bkFold out actions reshaped m s).logs.num_frames_per_episode =
      s.logs.num_frames_per_episode ++ (List.range m).filterMap (fun i =>
        if out.dones.getD i false then
          some (s.framesPerEpisode.getD i 0 + 1) else none) ∧
    (bkFold out actions reshaped m s).logs.reshaped_return_per_episode =
      s.logs.reshaped_return_per_episode ++ (List.range m).filterMap (fun i =>
        if out.dones.getD i false then
          some (s.reshapedReturns.getD i 0 + reshaped.getD i 0) else none) ∧
    (bkFold out actions reshaped m s).logs.reshaped_return_bonus_per_episode =
      s.logs.reshaped_return_bonus_per_episode ++ (List.range m).filterMap (fun i =>
        if out.dones.getD i false then
          some (s.reshapedReturns.getD i 0 + reshaped.getD i 0) else none) ∧
    (bkFold out actions reshaped m s).episodesDone =
      s.episodesDone + (List.range m).countP (fun i => out.dones.getD i false) := by
  induction m with
  | zero => simp [bkFold]
  | succ m ih =>
    have ihm := ih (by omega)
    have hpre := bkFold_preserve_ge out actions reshaped s m m (le_refl m)
    rw [bkFold_succ, List.range_succ, List.filterMap_append, List.filterMap_append,
      List.filterMap_append, List.countP_append]
    by_cases hd : out.dones.getD m false
    · have hdn := bookkeepSlot_done out actions reshaped
        (bkFold out actions reshaped m s) m n
        (bkFold_slotLen out actions reshaped m n s hS) (by omega) hd
      refine ⟨?_, ?_, ?_, ?_, ?_⟩
      · rw [hdn.2.2.2.2.2.1, ihm.1, hpre.1,
          filterMap_ite_singleton_true (fun i => out.dones.getD i false)
            (fun i => s.returns.getD i 0 + out.rewards.getD i 0) m hd,
          List.append_assoc]
      · rw [hdn.2.2.2.2.2.2.1, ihm.2.1, hpre.2.2.1,
          filterMap_ite_singleton_true (fun i => out.dones.getD i false)
            (fun i => s.framesPerEpisode.getD i 0 + 1) m hd,
          List.append_assoc]
      · rw [hdn.2.2.2.2.2.2.2.1, ihm.2.2.1, hpre.2.1,
          filterMap_ite_singleton_true (fun i => out.dones.getD i false)
            (fun i => s.reshapedReturns.getD i 0 + reshaped.getD i 0) m hd,
          List.append_assoc]
      · rw [hdn.2.2.2.2.2.2.2.2.1, ihm.2.2.2.1, hpre.2.1,
          filterMap_ite_singleton_true (fun i => out.dones.getD i false)
            (fun i => s.reshapedReturns.getD i 0 + reshaped.getD i 0) m hd,
          List.append_assoc]
      · rw [hdn.2.2.2.2.2.2.2.2.2, ihm.2.2.2.2, countP_singleton, if_pos hd]
        omega
    · have hd' : out.dones.getD m false = false := by
        cases hh : out.dones.getD m false
        · rfl
        · exact absurd hh hd
      have hnd := bookkeepSlot_notdone out actions reshaped
        (bkFold out actions reshaped m s) m n
        (bkFold_slotLen out actions reshaped m n s hS) (by omega) hd'
      refine ⟨?_, ?_, ?_, ?_, ?_⟩
      · rw [hnd.2.2.2.1, ihm.1,
          filterMap_ite_singleton_false (fun i => out.dones.getD i false)
            (fun i => s.returns.getD i 0 + out.rewards.getD i 0) m hd',
          List.append_nil]
      · rw [hnd.2.2.2.1, ihm.2.1,
          filterMap_ite_singleton_false (fun i => out.dones.getD i false)
            (fun i => s.framesPerEpisode.getD i 0 + 1) m hd',
          List.append_nil]
      · rw [hnd.2.2.2.1, ihm.2.2.1,
          filterMap_ite_singleton_false (fun i => out.dones.getD i false)
            (fun i => s.reshapedReturns.getD i 0 + reshaped.getD i 0) m hd',
          List.append_nil]
      · rw [hnd.2.2.2.1, ihm.2.2.2.1,
          filterMap_ite_singleton_false (fun i => out.dones.getD i false)
            (fun i => s.reshapedReturns.getD i 0 + reshaped.getD i 0) m hd',
          List.append_nil]
      · rw [hnd.2.2.2.2, ihm.2.2.2.2, countP_singleton,
          if_neg (by rw [hd']; exact Bool.false_ne_true)]
        omega

/-! ## Lemmas about a full rollout tick and the rollout run -/

/-- `actions = [_subgoals[idx] for _subgoals, idx in zip(self.subgoals,
action_idxs)]` (`drrn.py` line 144). -/
def tickActions (c : AgentCtx) (t : TickOracle) : List String :=
  List.zipWith (fun sgs idx => sgs.getD idx "") c.subgoals t.sampleIdxs

/-- `reshaped_rewards` (`drrn.py` line 152). -/
def tickReshaped (c : AgentCtx) (t : TickOracle) : List ℚ :=
  t.out.rewards.map (fun r => (c.reshapeReward r).1)

/-- `action_ids` as produced by `act` (`drrn.py` line 106): the encoded
action at the sampled (unclamped) index. -/
def tickActionIds (c : AgentCtx) (t : TickOracle) : List TokenIds :=
  List.zipWith (fun acts idx => acts.getD idx []) c.encodedActions t.sampleIdxs

/-- `next_states` (`drrn.py` lines 173-177), built from the post-bookkeeping
queues `s1`. -/
def tickNextStates (c : AgentCtx) (t : TickOracle) (s1 : RolloutState) : List TokenIds :=
  (List.range c.n_envs).map (fun j =>
    c.encode (c.generatePrompt (t.out.missions.getD j "") (c.subgoals.getD j [])
      (s1.obsQueue.getD j []) (s1.actsQueue.getD j [])))

theorem rolloutTick_proj (c : AgentCtx) (s : RolloutState) (t : TickOracle) :
    (rolloutTick c s t).1.logs =
      (bkFold t.out (tickActions c t) (tickReshaped c t) c.n_envs s).logs ∧
    (rolloutTick c s t).1.episodesDone =
      (bkFold t.out (tickActions c t) (tickReshaped c t) c.n_envs s).episodesDone ∧
    (rolloutTick c s t).1.returns =
      (bkFold t.out (tickActions c t) (tickReshaped c t) c.n_envs s).returns ∧
    (rolloutTick c s t).1.reshapedReturns =
      (bkFold t.out (tickActions c t) (tickReshaped c t) c.n_envs s).reshapedReturns ∧
    (rolloutTick c s t).1.framesPerEpisode =
      (bkFold t.out (tickActions c t) (tickReshaped c t) c.n_envs s).framesPerEpisode ∧
    (rolloutTick c s t).1.obsQueue =
      (bkFold t.out (tickActions c t) (tickReshaped c t) c.n_envs s).obsQueue ∧
    (rolloutTick c s t).1.actsQueue =
      (bkFold t.out (tickActions c t) (tickReshaped c t) c.n_envs s).actsQueue :=
  ⟨rfl, rfl, rfl, rfl, rfl, rfl, rfl⟩

theorem rolloutTick_memory (c : AgentCtx) (s : RolloutState) (t : TickOracle) :
    (rolloutTick c s t).1.memory =
      observeAll (bkFold t.out (tickActions c t) (tickReshaped c t) c.n_envs s).memory
        s.states (tickActionIds c t) (tickReshaped c t)
        (tickNextStates c t (bkFold t.out (tickActions c t) (tickReshaped c t) c.n_envs s))
        c.encodedActions t.out.dones := rfl

theorem rolloutTick_sent (c : AgentCtx) (s : RolloutState) (t : TickOracle) :
    (rolloutTick c s t).2 =
      if 6 < (c.subgoals.headD []).length then
        t.sampleIdxs.map (fun i => if 6 < i then 6 else i)
      else t.sampleIdxs := rfl

theorem observe_fields (m : PrioritizedReplayMemory) (st a : TokenIds) (r : ℚ)
    (ns : TokenIds) (pa : List TokenIds) (d : Bool) :
    (DRRNAgent.observe m st a r ns pa d).priorityPool = m.priorityPool ∧
    (DRRNAgent.observe m st a r ns pa d).priorityCapacity = m.priorityCapacity ∧
    (DRRNAgent.observe m st a r ns pa d).nonPriorityCapacity = m.nonPriorityCapacity ∧
    (DRRNAgent.observe m st a r ns pa d).priority_fraction = m.priority_fraction ∧
    (DRRNAgent.observe m st a r ns pa d).nonPriorityPool =
      pushPool m.nonPriorityCapacity m.nonPriorityPool ⟨st, a, r, ns, pa, d⟩ := by
  simp only [DRRNAgent.observe, PrioritizedReplayMemory.push]
  rw [if_neg (by exact Bool.false_ne_true)]
  exact ⟨rfl, rfl, rfl, rfl, rfl⟩

theorem observe_foldl_priorityPool (ts : List Transition) (m : PrioritizedReplayMemory) :
    (ts.foldl (fun mm tr => DRRNAgent.observe mm tr.state tr.act tr.reward
      tr.next_state tr.next_acts tr.done) m).priorityPool = m.priorityPool := by
  induction ts generalizing m with
  | nil => rfl
  | cons tr ts ih =>
    rw [List.foldl_cons, ih]
    exact (observe_fields m tr.state tr.act tr.reward tr.next_state tr.next_acts
      tr.done).1

theorem observe_foldl_nonPriorityPool (ts : List Transition)
    (m : PrioritizedReplayMemory)
    (h : m.nonPriorityPool.length + ts.length ≤ m.nonPriorityCapacity) :
    (ts.foldl (fun mm tr => DRRNAgent.observe mm tr.state tr.act tr.reward
      tr.next_state tr.next_acts tr.done) m).nonPriorityPool =
      m.nonPriorityPool ++ ts := by
  induction ts generalizing m with
  | nil => simp
  | cons tr ts ih =>
    rw [List.foldl_cons]
    have hlt : m.nonPriorityPool.length < m.nonPriorityCapacity := by
      simp only [List.length_cons] at h
      omega
    have hobs := observe_fields m tr.state tr.act tr.reward tr.next_state
      tr.next_acts tr.done
    have hpool : (DRRNAgent.observe m tr.state tr.act tr.reward tr.next_state
        tr.next_acts tr.done).nonPriorityPool = m.nonPriorityPool ++ [tr] := by
      rw [hobs.2.2.2.2]
      unfold pushPool
      rw [if_pos hlt]
    have hih := ih (DRRNAgent.observe m tr.state tr.act tr.reward tr.next_state
      tr.next_acts tr.done) (by
        rw [hpool, hobs.2.2.1, List.length_append]
        simp only [List.length_cons] at h
        simp only [List.length_singleton]
        omega)
    rw [hih, hpool, List.append_assoc, List.singleton_append]

theorem observeAll_eq_foldl (m : PrioritizedReplayMemory) (sts ax : List TokenIds)
    (rs : List ℚ) (nss : List TokenIds) (pas : List (List TokenIds)) (ds : List Bool) :
    observeAll m sts ax rs nss pas ds =
      (zipTransitions sts ax rs nss pas ds).foldl (fun mm tr =>
        DRRNAgent.observe mm tr.state tr.act tr.reward tr.next_state
          tr.next_acts tr.done) m := rfl

theorem zipTransitions_length (n : ℕ) (l1 l2 : List TokenIds) (l3 : List ℚ)
    (l4 : List TokenIds) (l5 : List (List TokenIds)) (l6 : List Bool)
    (h1 : l1.length = n) (h2 : l2.length = n) (h3 : l3.length = n)
    (h4 : l4.length = n) (h5 : l5.length = n) (h6 : l6.length = n) :
    (zipTransitions l1 l2 l3 l4 l5 l6).length = n := by
  induction n generalizing l1 l2 l3 l4 l5 l6 with
  | zero =>
    rw [List.length_eq_zero] at h1 h2 h3 h4 h5 h6
    subst h1; subst h2; subst h3; subst h4; subst h5; subst h6
    rfl
  | succ n ih =>
    cases l1 with | nil => simp at h1 | cons x1 t1 =>
    cases l2 with | nil => simp at h2 | cons x2 t2 =>
    cases l3 with | nil => simp at h3 | cons x3 t3 =>
    cases l4 with | nil => simp at h4 | cons x4 t4 =>
    cases l5 with | nil => simp at h5 | cons x5 t5 =>
    cases l6 with | nil => simp at h6 | cons x6 t6 =>
    simp only [zipTransitions, List.length_cons]
    rw [ih t1 t2 t3 t4 t5 t6 (by simpa using h1) (by simpa using h2)
      (by simpa using h3) (by simpa using h4) (by simpa using h5) (by simpa using h6)]

theorem zipTransitions_get (j n : ℕ) (l1 l2 : List TokenIds) (l3 : List ℚ)
    (l4 : List TokenIds) (l5 : List (List TokenIds)) (l6 : List Bool)
    (h1 : l1.length = n) (h2 : l2.length = n) (h3 : l3.length = n)
    (h4 : l4.length = n) (h5 : l5.length = n) (h6 : l6.length = n) (hj : j < n) :
    (zipTransitions l1 l2 l3 l4 l5 l6).get? j =
      some ⟨l1.getD j [], l2.getD j [], l3.getD j 0, l4.getD j [],
        l5.getD j [], l6.getD j false⟩ := by
  induction j generalizing n l1 l2 l3 l4 l5 l6 with
  | zero =>
    cases n with | zero => omega | succ n =>
    cases l1 with | nil => simp at h1 | cons x1 t1 =>
    cases l2 with | nil => simp at h2 | cons x2 t2 =>
    cases l3 with | nil => simp at h3 | cons x3 t3 =>
    cases l4 with | nil => simp at h4 | cons x4 t4 =>
    cases l5 with | nil => simp at h5 | cons x5 t5 =>
    cases l6 with | nil => simp at h6 | cons x6 t6 =>
    rfl
  | succ j ih =>
    cases n with | zero => omega | succ n =>
    cases l1 with | nil => simp at h1 | cons x1 t1 =>
    cases l2 with | nil => simp at h2 | cons x2 t2 =>
    cases l3 with | nil => simp at h3 | cons x3 t3 =>
    cases l4 with | nil => simp at h4 | cons x4 t4 =>
    cases l5 with | nil => simp at h5 | cons x5 t5 =>
    cases l6 with | nil => simp at h6 | cons x6 t6 =>
    simp only [zipTransitions, List.get?_cons_succ, List.getD_cons_succ]
    exact ih n t1 t2 t3 t4 t5 t6 (by simpa using h1) (by simpa using h2)
      (by simpa using h3) (by simpa using h4) (by simpa using h5)
      (by simpa using h6) (by omega)

theorem rolloutRun_nil (c : AgentCtx) (s : RolloutState) : rolloutRun c s [] = s := rfl

theorem rolloutRun_cons (c : AgentCtx) (s : RolloutState) (t : TickOracle)
    (ts : List TickOracle) :
    rolloutRun c s (t :: ts) = rolloutRun c (rolloutTick c s t).1 ts := rfl

theorem rolloutTick_scalars (c : AgentCtx) (s : RolloutState) (t : TickOracle) :
    (rolloutTick c s t).1.logs.num_frames = s.logs.num_frames ∧
    (rolloutTick c s t).1.logs.episodes_done = s.logs.episodes_done ∧
    (rolloutTick c s t).1.logs.entropy = s.logs.entropy ∧
    (rolloutTick c s t).1.logs.policy_loss = s.logs.policy_loss ∧
    (rolloutTick c s t).1.logs.value_loss = s.logs.value_loss ∧
    (rolloutTick c s t).1.logs.grad_norm = s.logs.grad_norm ∧
    (rolloutTick c s t).1.logs.loss = s.logs.loss ∧
    (rolloutTick c s t).1.memory.priorityPool = s.memory.priorityPool := by
  have hp := rolloutTick_proj c s t
  have hb := bkFold_scalars t.out (tickActions c t) (tickReshaped c t) c.n_envs s
  refine ⟨?_, ?_, ?_, ?_, ?_, ?_, ?_, ?_⟩
  · rw [hp.1]; exact hb.2.2.1
  · rw [hp.1]; exact hb.2.2.2.1
  · rw [hp.1]; exact hb.2.2.2.2.1
  · rw [hp.1]; exact hb.2.2.2.2.2.1
  · rw [hp.1]; exact hb.2.2.2.2.2.2.1
  · rw [hp.1]; exact hb.2.2.2.2.2.2.2.1
  · rw [hp.1]; exact hb.2.2.2.2.2.2.2.2
  · rw [rolloutTick_memory, observeAll_eq_foldl, observe_foldl_priorityPool, hb.1]

theorem rolloutRun_scalars (c : AgentCtx) (s : RolloutState) (ticks : List TickOracle) :
    (rolloutRun c s ticks).logs.num_frames = s.logs.num_frames ∧
    (rolloutRun c s ticks).logs.episodes_done = s.logs.episodes_done ∧
    (rolloutRun c s ticks).logs.entropy = s.logs.entropy ∧
    (rolloutRun c s ticks).logs.policy_loss = s.logs.policy_loss ∧
    (rolloutRun c s ticks).logs.value_loss = s.logs.value_loss ∧
    (rolloutRun c s ticks).logs.grad_norm = s.logs.grad_norm ∧
    (rolloutRun c s ticks).logs.loss = s.logs.loss ∧
    (rolloutRun c s ticks).memory.priorityPool = s.memory.priorityPool := by
  induction ticks generalizing s with
  | nil => exact ⟨rfl, rfl, rfl, rfl, rfl, rfl, rfl, rfl⟩
  | cons t ts ih =>
    rw [rolloutRun_cons]
    have ht := rolloutTick_scalars c s t
    have ihh := ih (rolloutTick c s t).1
    exact ⟨ihh.1.trans ht.1, ihh.2.1.trans ht.2.1, ihh.2.2.1.trans ht.2.2.1,
      ihh.2.2.2.1.trans ht.2.2.2.1, ihh.2.2.2.2.1.trans ht.2.2.2.2.1,
      ihh.2.2.2.2.2.1.trans ht.2.2.2.2.2.1, ihh.2.2.2.2.2.2.1.trans ht.2.2.2.2.2.2.1,
      ihh.2.2.2.2.2.2.2.trans ht.2.2.2.2.2.2.2⟩

theorem rolloutTick_slotLen (c : AgentCtx) (s : RolloutState) (t : TickOracle) (n : ℕ)
    (h : SlotLen s n) : SlotLen (rolloutTick c s t).1 n := by
  have hp := rolloutTick_proj c s t
  have hb := bkFold_slotLen t.out (tickActions c t) (tickReshaped c t) c.n_envs n s h
  refine ⟨?_, ?_, ?_, ?_, ?_⟩
  · rw [hp.2.2.1]; exact hb.1
  · rw [hp.2.2.2.1]; exact hb.2.1
  · rw [hp.2.2.2.2.1]; exact hb.2.2.1
  · rw [hp.2.2.2.2.2.1]; exact hb.2.2.2.1
  · rw [hp.2.2.2.2.2.2]; exact hb.2.2.2.2

theorem rolloutRun_slotLen (c : AgentCtx) (s : RolloutState) (ticks : List TickOracle)
    (n : ℕ) (h : SlotLen s n) : SlotLen (rolloutRun c s ticks) n := by
  induction ticks generalizing s with
  | nil => exact h
  | cons t ts ih =>
    rw [rolloutRun_cons]
    exact ih (rolloutTick c s t).1 (rolloutTick_slotLen c s t n h)

theorem rolloutTick_done_slot (c : AgentCtx) (s : RolloutState) (t : TickOracle)
    (j : ℕ) (hS : SlotLen s c.n_envs) (hj : j < c.n_envs)
    (hd : t.out.dones.getD j false = true) :
    (rolloutTick c s t).1.returns.getD j 0 = 0 ∧
    (rolloutTick c s t).1.reshapedReturns.getD j 0 = 0 ∧
    (rolloutTick c s t).1.framesPerEpisode.getD j 0 = 0 ∧
    (rolloutTick c s t).1.obsQueue.getD j [] = [] ∧
    (rolloutTick c s t).1.actsQueue.getD j [] = [] := by
  have hp := rolloutTick_proj c s t
  have hb := bkFold_done_slot t.out (tickActions c t) (tickReshaped c t) s
    c.n_envs c.n_envs j hS (le_refl _) hj hd
  refine ⟨?_, ?_, ?_, ?_, ?_⟩
  · rw [hp.2.2.1]; exact hb.1
  · rw [hp.2.2.2.1]; exact hb.2.1
  · rw [hp.2.2.2.2.1]; exact hb.2.2.1
  · rw [hp.2.2.2.2.2.1]; exact hb.2.2.2.1
  · rw [hp.2.2.2.2.2.2]; exact hb.2.2.2.2

theorem rolloutTick_notdone_slot (c : AgentCtx) (s : RolloutState) (t : TickOracle)
    (j : ℕ) (hS : SlotLen s c.n_envs) (hj : j < c.n_envs)
    (hd : t.out.dones.getD j false = false) :
    (rolloutTick c s t).1.returns.getD j 0 =
      s.returns.getD j 0 + t.out.rewards.getD j 0 ∧
    (rolloutTick c s t).1.framesPerEpisode.getD j 0 =
      s.framesPerEpisode.getD j 0 + 1 := by
  have hp := rolloutTick_proj c s t
  have hb := bkFold_notdone_slot t.out (tickActions c t) (tickReshaped c t) s
    c.n_envs c.n_envs j hS (le_refl _) hj hd
  exact ⟨by rw [hp.2.2.1]; exact hb.1, by rw [hp.2.2.2.2.1]; exact hb.2.2⟩

theorem rolloutRun_notdone_accum (c : AgentCtx) (s : RolloutState)
    (ticks : List TickOracle) (j : ℕ) (hS : SlotLen s c.n_envs) (hj : j < c.n_envs)
    (hnd : ∀ t ∈ ticks, t.out.dones.getD j false = false) :
    (rolloutRun c s ticks).returns.getD j 0 =
      s.returns.getD j 0 + (ticks.map (fun t => t.out.rewards.getD j 0)).sum ∧
    (rolloutRun c s ticks).framesPerEpisode.getD j 0 =
      s.framesPerEpisode.getD j 0 + ticks.length := by
  induction ticks generalizing s with
  | nil => simp [rolloutRun_nil]
  | cons t ts ih =>
    rw [rolloutRun_cons]
    have htick := rolloutTick_notdone_slot c s t j hS hj
      (hnd t (List.mem_cons_self t ts))
    have ihh := ih (rolloutTick c s t).1 (rolloutTick_slotLen c s t c.n_envs hS)
      (fun u hu => hnd u (List.mem_cons_of_mem t hu))
    constructor
    · rw [ihh.1, htick.1, List.map_cons, List.sum_cons]
      ring
    · rw [ihh.2, htick.2, List.length_cons]
      omega

theorem bookkeepSlot_logs_ex (out : EnvOut) (actions : List String) (reshaped : List ℚ)
    (s : RolloutState) (j : ℕ) :
    ∃ (b1 : List ℚ) (b2 : List ℕ) (b3 : List ℚ) (d : ℕ),
      (bookkeepSlot out actions reshaped s j).logs.return_per_episode =
        s.logs.return_per_episode ++ b1 ∧
      (bookkeepSlot out actions reshaped s j).logs.num_frames_per_episode =
        s.logs.num_frames_per_episode ++ b2 ∧
      (bookkeepSlot out actions reshaped s j).logs.reshaped_return_per_episode =
        s.logs.reshaped_return_per_episode ++ b3 ∧
      (bookkeepSlot out actions reshaped s j).logs.reshaped_return_bonus_per_episode =
        s.logs.reshaped_return_bonus_per_episode ++ b3 ∧
      (bookkeepSlot out actions reshaped s j).episodesDone = s.episodesDone + d ∧
      b1.length = d ∧ b2.length = d ∧ b3.length = d := by
  simp only [bookkeepSlot]
  by_cases hd : out.dones.getD j false
  · rw [if_pos hd]
    exact ⟨_, _, _, 1, rfl, rfl, rfl, rfl, rfl, rfl, rfl, rfl⟩
  · rw [if_neg hd]
    exact ⟨[], [], [], 0, by simp, by simp, by simp, by simp, rfl, rfl, rfl, rfl⟩

theorem bkFold_logs_ex (out : EnvOut) (actions : List String) (reshaped : List ℚ)
    (m : ℕ) (s : RolloutState) :
    ∃ (b1 : List ℚ) (b2 : List ℕ) (b3 : List ℚ) (d : ℕ),
      (bkFold out actions reshaped m s).logs.return_per_episode =
        s.logs.return_per_episode ++ b1 ∧
      (bkFold out actions reshaped m s).logs.num_frames_per_episode =
        s.logs.num_frames_per_episode ++ b2 ∧
      (bkFold out actions reshaped m s).logs.reshaped_return_per_episode =
        s.logs.reshaped_return_per_episode ++ b3 ∧
      (bkFold out actions reshaped m s).logs.reshaped_return_bonus_per_episode =
        s.logs.reshaped_return_bonus_per_episode ++ b3 ∧
      (bkFold out actions reshaped m s).episodesDone = s.episodesDone + d ∧
      b1.length = d ∧ b2.length = d ∧ b3.length = d := by
  induction m with
  | zero => exact ⟨[], [], [], 0, by simp [bkFold], by simp [bkFold], by simp [bkFold],
      by simp [bkFold], rfl, rfl, rfl, rfl⟩
  | succ m ih =>
    obtain ⟨b1, b2, b3, d, h1, h2, h3, h4, h5, h6, h7, h8⟩ := ih
    obtain ⟨c1, c2, c3, e, g1, g2, g3, g4, g5, g6, g7, g8⟩ :=
      bookkeepSlot_logs_ex out actions reshaped (bkFold out actions reshaped m s) m
    refine ⟨b1 ++ c1, b2 ++ c2, b3 ++ c3, d + e, ?_, ?_, ?_, ?_, ?_, ?_, ?_, ?_⟩
    · rw [bkFold_succ, g1, h1, List.append_assoc]
    · rw [bkFold_succ, g2, h2, List.append_assoc]
    · rw [bkFold_succ, g3, h3, List.append_assoc]
    · rw [bkFold_succ, g4, h4, List.append_assoc]
    · rw [bkFold_succ, g5, h5]; omega
    · rw [List.length_append]; omega
    · rw [List.length_append]; omega
    · rw [List.length_append]; omega

theorem rolloutRun_logs_ex (c : AgentCtx) (s : RolloutState) (ticks : List TickOracle) :
    ∃ (b1 : List ℚ) (b2 : List ℕ) (b3 : List ℚ) (d : ℕ),
      (rolloutRun c s ticks).logs.return_per_episode =
        s.logs.return_per_episode ++ b1 ∧
      (rolloutRun c s ticks).logs.num_frames_per_episode =
        s.logs.num_frames_per_episode ++ b2 ∧
      (rolloutRun c s ticks).logs.reshaped_return_per_episode =
        s.logs.reshaped_return_per_episode ++ b3 ∧
      (rolloutRun c s ticks).logs.reshaped_return_bonus_per_episode =
        s.logs.reshaped_return_bonus_per_episode ++ b3 ∧
      (rolloutRun c s ticks).episodesDone = s.episodesDone + d ∧
      b1.length = d ∧ b2.length = d ∧ b3.length = d := by
  induction ticks generalizing s with
  | nil => exact ⟨[], [], [], 0, by simp [rolloutRun_nil], by simp [rolloutRun_nil],
      by simp [rolloutRun_nil], by simp [rolloutRun_nil], rfl, rfl, rfl, rfl⟩
  | cons t ts ih =>
    have hp := rolloutTick_proj c s t
    obtain ⟨c1, c2, c3, e, g1, g2, g3, g4, g5, g6, g7, g8⟩ :=
      bkFold_logs_ex t.out (tickActions c t) (tickReshaped c t) c.n_envs s
    obtain ⟨b1, b2, b3, d, h1, h2, h3, h4, h5, h6, h7, h8⟩ := ih (rolloutTick c s t).1
    refine ⟨c1 ++ b1, c2 ++ b2, c3 ++ b3, e + d, ?_, ?_, ?_, ?_, ?_, ?_, ?_, ?_⟩
    · rw [rolloutRun_cons, h1, hp.1, g1, List.append_assoc]
    · rw [rolloutRun_cons, h2, hp.1, g2, List.append_assoc]
    · rw [rolloutRun_cons, h3, hp.1, g3, List.append_assoc]
    · rw [rolloutRun_cons, h4, hp.1, g4, List.append_assoc]
    · rw [rolloutRun_cons, h5, hp.2.1, g5]; omega
    · rw [List.length_append]; omega
    · rw [List.length_append]; omega
    · rw [List.length_append]; omega

/-- Value-level log growth of one rollout tick (for the episode-bookkeeping
claim): the block of entries appended to `return_per_episode` and
`num_frames_per_episode` is exactly, in environment-index order, the flushed
accumulator values of the done slots. -/
theorem rolloutTick_logs_block (c : AgentCtx) (s : RolloutState) (t : TickOracle)
    (hS : SlotLen s c.n_envs) :
    (rolloutTick c s t).1.logs.return_per_episode =
      s.logs.return_per_episode ++ (List.range c.n_envs).filterMap (fun i =>
        if t.out.dones.getD i false then
          some (s.returns.getD i 0 + t.out.rewards.getD i 0) else none) ∧
    (rolloutTick c s t).1.logs.num_frames_per_episode =
      s.logs.num_frames_per_episode ++ (List.range c.n_envs).filterMap (fun i =>
        if t.out.dones.getD i false then
          some (s.framesPerEpisode.getD i 0 + 1) else none) ∧
    (rolloutTick c s t).1.episodesDone =
      s.episodesDone + (List.range c.n_envs).countP (fun i => t.out.dones.getD i false) := by
  have hp := rolloutTick_proj c s t
  have hb := bkFold_logs_block t.out (tickActions c t) (tickReshaped c t) s
    c.n_envs c.n_envs hS (le_refl _)
  exact ⟨by rw [hp.1]; exact hb.1, by rw [hp.1]; exact hb.2.1,
    by rw [hp.2.1]; exact hb.2.2.2.2⟩

/-! ## Claim theorems -/

/-- Claim C10: every transition stored by `DRRNAgent` goes through
`observe`, which pushes with the priority flag hard-coded to `False`, so the
priority pool never changes under any sequence of stored transitions (and in
particular stays empty forever from the initial empty memory, which is also
constructed with `priority_fraction` defaulting to `0`); the rollout loop of
`update_parameters` therefore never touches the priority pool either. -/
theorem observe_priority_pool_permanently_empty :
    (∀ (m : PrioritizedReplayMemory) (ts : List Transition),
      (ts.foldl (fun mm tr => DRRNAgent.observe mm tr.state tr.act tr.reward
        tr.next_state tr.next_acts tr.done) m).priorityPool = m.priorityPool) ∧
    (∀ memory_size : ℕ,
      (initDRRNMemory memory_size drrn_default_priority_fraction).priority_fraction
        = 0 ∧
      (initDRRNMemory memory_size drrn_default_priority_fraction).priorityPool = [] ∧
      ∀ ts : List Transition,
        (ts.foldl (fun mm tr => DRRNAgent.observe mm tr.state tr.act tr.reward
          tr.next_state tr.next_acts tr.done)
          (initDRRNMemory memory_size drrn_default_priority_fraction)).priorityPool
          = []) ∧
    (∀ (c : AgentCtx) (s0 : RolloutState) (ticks : List TickOracle)
      (sample : ℕ → List Transition),
      (DRRNAgent.update_parameters c s0 ticks sample).2.1.memory.priorityPool =
        s0.memory.priorityPool) := by
  refine ⟨fun m ts => observe_foldl_priorityPool ts m, ?_, ?_⟩
  · intro memory_size
    exact ⟨rfl, rfl, fun ts => observe_foldl_priorityPool ts _⟩
  · intro c s0 ticks sample
    exact (rolloutRun_scalars c { s0 with episodesDone := 0 } ticks).2.2.2.2.2.2.2

/-- Claim C7: every checkpoint-writing step of `PPOUpdater.perform_update`
first copies `last` to `backup` and only then overwrites both files of
`last`, so after every completed save the backup generation holds exactly
the previously written `last` generation — also along any sequence of
saves. -/
theorem ppo_save_backup_invariant :
    ∀ (M O : Type) (fs : PPOCkptStore M O) (m : M) (o : O),
      (saveCheckpointStep fs m o).backup_model = fs.last_model ∧
      (saveCheckpointStep fs m o).backup_optim = fs.last_optim ∧
      (saveCheckpointStep fs m o).last_model = some m ∧
      (saveCheckpointStep fs m o).last_optim = some o ∧
      ∀ ws : List (M × O),
        (saveCheckpointStep
          (ws.foldl (fun st w => saveCheckpointStep st w.1 w.2) fs) m o).backup_model
          = (ws.foldl (fun st w => saveCheckpointStep st w.1 w.2) fs).last_model ∧
        (saveCheckpointStep
          (ws.foldl (fun st w => saveCheckpointStep st w.1 w.2) fs) m o).backup_optim
          = (ws.foldl (fun st w => saveCheckpointStep st w.1 w.2) fs).last_optim :=
  fun M O fs m o => ⟨rfl, rfl, rfl, rfl, fun ws => ⟨rfl, rfl⟩⟩

/-- Claim C6: when loading the fine-tuned `last` generation raises, the
updater loads the `backup` generation instead and then copies the whole
backup directory over the `last` directory; if the backup load fails too,
the error propagates. -/
theorem ppo_load_fallback (M O : Type) (fs : PPOCkptStore M O)
    (hfail : fs.last_model = none ∨ fs.last_optim = none) :
    (∀ (m : M) (o : O), fs.backup_model = some m → fs.backup_optim = some o →
      loadFineTuned fs = Except.ok ((m, o),
        { fs with last_model := some m, last_optim := some o })) ∧
    ((fs.backup_model = none ∨ fs.backup_optim = none) →
      loadFineTuned fs = Except.error CkptLoadError.backupLoadFailed) := by
  constructor
  · intro m o hbm hbo
    cases hlm : fs.last_model with
    | none => simp only [loadFineTuned, hlm, hbm, hbo]
    | some lm =>
      cases hlo : fs.last_optim with
      | none => simp only [loadFineTuned, hlm, hlo, hbm, hbo]
      | some lo =>
        exfalso
        rcases hfail with h | h
        · rw [hlm] at h; exact Option.noConfusion h
        · rw [hlo] at h; exact Option.noConfusion h
  · intro hbf
    cases hlm : fs.last_model with
    | none =>
      rcases hbf with hb | hb
      · simp only [loadFineTuned, hlm, hb]
      · cases hbm : fs.backup_model with
        | none => simp only [loadFineTuned, hlm, hbm]
        | some bm => simp only [loadFineTuned, hlm, hbm, hb]
    | some lm =>
      cases hlo : fs.last_optim with
      | none =>
        rcases hbf with hb | hb
        · simp only [loadFineTuned, hlm, hlo, hb]
        · cases hbm : fs.backup_model with
          | none => simp only [loadFineTuned, hlm, hlo, hbm]
          | some bm => simp only [loadFineTuned, hlm, hlo, hbm, hb]
      | some lo =>
        exfalso
        rcases hfail with h | h
        · rw [hlm] at h; exact Option.noConfusion h
        · rw [hlo] at h; exact Option.noConfusion h

/-- Claim C9 counterexample: the claim asserts that after a caught
memory/optimizer restoration failure the agent continues "with a freshly
initialized buffer/optimizer". Concrete refuting run of `DRRNAgent.load`
(buffers are numbered: `0` = the freshly initialized one, `1` = the one
restored from `memory.pkl`): unpickling the memory succeeds and is assigned
to `self.memory`, then loading the optimizer checkpoint raises; the
exception is caught, but the agent continues with the *restored* buffer
`1`, not the freshly initialized buffer `0`. -/
theorem drrn_load_partial_restore_counterexample :
    DRRNAgent.load (0 : ℕ) (0 : ℕ) (Except.ok (1 : ℕ)) (Except.error ())
      (Except.ok (5 : ℕ)) = Except.ok (1, 0, 5) ∧ (1 : ℕ) ≠ 0 :=
  ⟨rfl, by decide⟩

/-- Claim C9 (amended): `DRRNAgent.load` catches any exception raised while
restoring the replay memory or the optimizer state and continues with the
state installed at the point of failure — if unpickling the memory fails,
both the buffer and the optimizer remain the freshly initialized ones; if
the memory restores but the optimizer load fails, the restored buffer is
kept and the optimizer remains the freshly initialized one — whereas a
failure to restore the network weights from `model.checkpoint` is uncaught
and propagates to the caller. -/
theorem drrn_load_error_containment (Mem Opt Net E : Type)
    (self_memory : Mem) (self_optimizer : Opt)
    (memFile : Except E Mem) (optFile : Except E Opt) (netFile : Except E Net) :
    (∀ e, netFile = Except.error e →
      DRRNAgent.load self_memory self_optimizer memFile optFile netFile =
        Except.error e) ∧
    (∀ n, netFile = Except.ok n →
      (∀ e, memFile = Except.error e →
        DRRNAgent.load self_memory self_optimizer memFile optFile netFile =
          Except.ok (self_memory, self_optimizer, n)) ∧
      (∀ m, memFile = Except.ok m →
        (∀ e, optFile = Except.error e →
          DRRNAgent.load self_memory self_optimizer memFile optFile netFile =
            Except.ok (m, self_optimizer, n)) ∧
        (∀ o, optFile = Except.ok o →
          DRRNAgent.load self_memory self_optimizer memFile optFile netFile =
            Except.ok (m, o, n)))) := by
  refine ⟨?_, ?_⟩
  · intro e he
    cases memFile with
    | error em => simp only [DRRNAgent.load, he]
    | ok m =>
      cases optFile with
      | error eo => simp only [DRRNAgent.load, he]
      | ok o => simp only [DRRNAgent.load, he]
  · intro n hn
    refine ⟨?_, ?_⟩
    · intro e he
      simp only [DRRNAgent.load, hn, he]
    · intro m hm
      refine ⟨?_, ?_⟩
      · intro e he
        simp only [DRRNAgent.load, hn, hm, he]
      · intro o ho
        simp only [DRRNAgent.load, hn, hm, ho]

/-! ## Helper lemmas for the PPO ratio claim -/

theorem zipWith_exp_sub_self (e : ℚ → ℚ) (he : e 0 = 1) (l : List ℚ) :
    List.zipWith (fun lp olp => e (lp - olp)) l l = l.map (fun _ => (1 : ℚ)) := by
  induction l with
  | nil => rfl
  | cons x t ih => simp [List.zipWith_cons_cons, sub_self, he, ih]

theorem zipWith_map_one_apply (g : ℚ → ℚ → ℚ) (hg : ∀ a, g 1 a = a)
    (l adv : List ℚ) (h : adv.length = l.length) :
    List.zipWith g (l.map (fun _ => (1 : ℚ))) adv = adv := by
  induction l generalizing adv with
  | nil =>
    rw [List.length_eq_zero.mp h]
    rfl
  | cons x t ih =>
    cases adv with
    | nil => simp at h
    | cons a u =>
      simp only [List.map_cons, List.zipWith_cons_cons, hg]
      rw [ih u (by simpa using h)]

theorem zipWith_min_self (l : List ℚ) : List.zipWith min l l = l := by
  induction l with
  | nil => rfl
  | cons x t ih => simp [List.zipWith_cons_cons, min_self, ih]

/-- Claim C4: in the PPO branch of `PPOUpdater.perform_update`, if the
recomputed per-sample log-probabilities equal the stored ones (so every
ratio is `exp 0 = 1` exactly), then for every `clip_eps ≥ 0` the unclipped
surrogate `ratio * A` and the clipped surrogate
`clamp(ratio, 1-eps, 1+eps) * A` coincide, and the policy loss equals minus
the mean of the stored advantages. `e` stands for `torch.exp`; the only
property used is `e 0 = 1`. -/
theorem ppo_ratio_one_policy_loss (e : ℚ → ℚ) (log_prob old_log_prob adv : List ℚ)
    (clip_eps : ℚ) (he : e 0 = 1) (heq : log_prob = old_log_prob)
    (hlen : adv.length = log_prob.length) (heps : 0 ≤ clip_eps) :
    ppoSurr1 e log_prob old_log_prob adv =
      ppoSurr2 e log_prob old_log_prob adv clip_eps ∧
    ppoPolicyLoss e log_prob old_log_prob adv clip_eps = -(listMean adv) := by
  subst heq
  have hratio : ppoRatio e log_prob log_prob = log_prob.map (fun _ => (1 : ℚ)) :=
    zipWith_exp_sub_self e he log_prob
  have hclamp : torch_clamp 1 (1 - clip_eps) (1 + clip_eps) = 1 := by
    unfold torch_clamp
    rw [min_eq_left (by linarith), max_eq_right (by linarith)]
  have h1 : ppoSurr1 e log_prob log_prob adv = adv := by
    unfold ppoSurr1
    rw [hratio]
    exact zipWith_map_one_apply (· * ·) one_mul log_prob adv hlen
  have h2 : ppoSurr2 e log_prob log_prob adv clip_eps = adv := by
    unfold ppoSurr2
    rw [hratio]
    exact zipWith_map_one_apply _ (fun a => by rw [hclamp, one_mul]) log_prob adv hlen
  refine ⟨h1.trans h2.symm, ?_⟩
  unfold ppoPolicyLoss
  rw [h1, h2, zipWith_min_self]

/-! ## Helper lemmas for the DRRN update claim -/

theorem join_sole_candidate (network : TokenIds → List TokenIds → List ℚ)
    (batch : List Transition)
    (hnet : ∀ t ∈ batch, ∃ v, network t.state [t.act] = [v]) :
    (batch.map (fun t => network t.state [t.act])).join =
      batch.map (fun t => (network t.state [t.act]).headD 0) := by
  induction batch with
  | nil => rfl
  | cons t bt ih =>
    obtain ⟨v, hv⟩ := hnet t (List.mem_cons_self t bt)
    have ih' := ih (fun u hu => hnet u (List.mem_cons_of_mem t hu))
    simp only [List.map_cons]
    rw [show ((network t.state [t.act] ::
        List.map (fun u => network u.state [u.act]) bt).join) =
      network t.state [t.act] ++
        (List.map (fun u => network u.state [u.act]) bt).join from rfl]
    rw [hv, ih', List.singleton_append]
    rfl

theorem drrn_targets_eq (gamma : ℚ) (network : TokenIds → List TokenIds → List ℚ)
    (batch : List Transition) :
    List.zipWith (fun t v => t.reward + gamma * v) batch
      (List.zipWith (fun v t => v * (1 - (if t.done then (1 : ℚ) else 0)))
        (batch.map (fun t => maxD (network t.next_state t.next_acts))) batch) =
      batch.map (fun t => t.reward + gamma *
        (if t.done then 0 else maxD (network t.next_state t.next_acts))) := by
  induction batch with
  | nil => rfl
  | cons t bt ih =>
    simp only [List.map_cons, List.zipWith_cons_cons]
    rw [ih]
    congr 1
    by_cases ht : t.done
    · simp [ht]
    · simp [ht]

theorem updateLoss_eq_spec (gamma : ℚ) (network : TokenIds → List TokenIds → List ℚ)
    (batch : List Transition)
    (hnet : ∀ t ∈ batch, ∃ v, network t.state [t.act] = [v]) :
    updateLoss gamma network batch =
      smooth_l1_loss (batch.map (fun t => (network t.state [t.act]).headD 0))
        (batch.map (fun t => t.reward + gamma *
          (if t.done then 0 else maxD (network t.next_state t.next_acts)))) := by
  simp only [updateLoss]
  rw [join_sole_candidate network batch hnet, drrn_targets_eq]

/-- Claim C2: for every sampled batch, `DRRNAgent.update` computes the
per-transition `next_Q_max` as the maximum of the network's values over the
stored next candidate actions, zeroes it exactly where `done` holds, forms
the target `reward + gamma * next_Q_max`, evaluates the network on the
taken action as the sole candidate, returns the smooth-L1 (Huber) loss
between predictions and targets, and performs
`zero_grad → backward → clip_grad_norm(clip) → optimizer.step` in that
order (the gradient clip precedes the optimizer step in the event trace).
The hypothesis `hnet` is the network contract: one scalar value per
candidate action. -/
theorem drrn_update_batch (gamma clip : ℚ) (batch_size : ℕ)
    (network : TokenIds → List TokenIds → List ℚ)
    (memory : PrioritizedReplayMemory) (sample : ℕ → List Transition)
    (hsize : batch_size ≤ memLen memory)
    (hnet : ∀ t ∈ sample batch_size, ∃ v, network t.state [t.act] = [v]) :
    DRRNAgent.update gamma clip batch_size network memory sample =
      (some (smooth_l1_loss
          ((sample batch_size).map (fun t => (network t.state [t.act]).headD 0))
          ((sample batch_size).map (fun t => t.reward + gamma *
            (if t.done then 0 else maxD (network t.next_state t.next_acts))))),
        [OptimEvent.zero_grad, OptimEvent.backward, OptimEvent.clip_grad_norm clip,
          OptimEvent.adam_step]) ∧
    (∀ t ∈ sample batch_size, network t.next_state t.next_acts ≠ [] →
      maxD (network t.next_state t.next_acts) ∈ network t.next_state t.next_acts ∧
      ∀ v ∈ network t.next_state t.next_acts,
        v ≤ maxD (network t.next_state t.next_acts)) := by
  constructor
  · simp only [DRRNAgent.update]
    rw [if_neg (not_lt.mpr hsize)]
    rw [updateLoss_eq_spec gamma network (sample batch_size) hnet]
  · intro t ht hne
    exact ⟨maxD_mem _ hne, fun v hv => le_maxD _ v hv⟩

/-! ## Projections of `update_parameters` -/

theorem update_parameters_state_proj (c : AgentCtx) (s0 : RolloutState)
    (ticks : List TickOracle) (sample : ℕ → List Transition) :
    (DRRNAgent.update_parameters c s0 ticks sample).2.1.logs.return_per_episode =
      (rolloutRun c { s0 with episodesDone := 0 } ticks).logs.return_per_episode ∧
    (DRRNAgent.update_parameters c s0 ticks sample).2.1.logs.num_frames_per_episode =
      (rolloutRun c { s0 with episodesDone := 0 } ticks).logs.num_frames_per_episode ∧
    (DRRNAgent.update_parameters c s0 ticks
        sample).2.1.logs.reshaped_return_per_episode =
      (rolloutRun c { s0 with episodesDone := 0 }
        ticks).logs.reshaped_return_per_episode ∧
    (DRRNAgent.update_parameters c s0 ticks
        sample).2.1.logs.reshaped_return_bonus_per_episode =
      (rolloutRun c { s0 with episodesDone := 0 }
        ticks).logs.reshaped_return_bonus_per_episode ∧
    (DRRNAgent.update_parameters c s0 ticks sample).2.1.returns =
      (rolloutRun c { s0 with episodesDone := 0 } ticks).returns ∧
    (DRRNAgent.update_parameters c s0 ticks sample).2.1.obsQueue =
      (rolloutRun c { s0 with episodesDone := 0 } ticks).obsQueue ∧
    (DRRNAgent.update_parameters c s0 ticks sample).2.1.actsQueue =
      (rolloutRun c { s0 with episodesDone := 0 } ticks).actsQueue ∧
    (DRRNAgent.update_parameters c s0 ticks sample).2.1.memory =
      (rolloutRun c { s0 with episodesDone := 0 } ticks).memory ∧
    (DRRNAgent.update_parameters c s0 ticks sample).2.1.episodesDone =
      (rolloutRun c { s0 with episodesDone := 0 } ticks).episodesDone := by
  simp only [DRRNAgent.update_parameters]
  rcases hu : DRRNAgent.update c.gamma c.clip c.batchSize c.network
    (rolloutRun c { s0 with episodesDone := 0 } ticks).memory sample with ⟨lopt, evs⟩
  cases lopt with
  | none => simp
  | some l => simp

theorem update_parameters_ret_proj (c : AgentCtx) (s0 : RolloutState)
    (ticks : List TickOracle) (sample : ℕ → List Transition) :
    (DRRNAgent.update_parameters c s0 ticks sample).1.return_per_episode =
      pySliceDropLast
        (rolloutRun c { s0 with episodesDone := 0 } ticks).logs.return_per_episode
        (rolloutRun c { s0 with episodesDone := 0 } ticks).episodesDone ∧
    (DRRNAgent.update_parameters c s0 ticks sample).1.reshaped_return_per_episode =
      pySliceDropLast
        (rolloutRun c { s0 with episodesDone := 0 }
          ticks).logs.reshaped_return_per_episode
        (rolloutRun c { s0 with episodesDone := 0 } ticks).episodesDone ∧
    (DRRNAgent.update_parameters c s0 ticks
        sample).1.reshaped_return_bonus_per_episode =
      pySliceDropLast
        (rolloutRun c { s0 with episodesDone := 0 }
          ticks).logs.reshaped_return_bonus_per_episode
        (rolloutRun c { s0 with episodesDone := 0 } ticks).episodesDone ∧
    (DRRNAgent.update_parameters c s0 ticks sample).1.num_frames_per_episode =
      pySliceDropLast
        (rolloutRun c { s0 with episodesDone := 0 }
          ticks).logs.num_frames_per_episode
        (rolloutRun c { s0 with episodesDone := 0 } ticks).episodesDone ∧
    (DRRNAgent.update_parameters c s0 ticks sample).1.episodes_done =
      (rolloutRun c { s0 with episodesDone := 0 } ticks).episodesDone := by
  simp only [DRRNAgent.update_parameters]
  rcases hu : DRRNAgent.update c.gamma c.clip c.batchSize c.network
    (rolloutRun c { s0 with episodesDone := 0 } ticks).memory sample with ⟨lopt, evs⟩
  cases lopt with
  | none => simp
  | some l => simp

/-- Claim C3: the logs dict returned by `DRRNAgent.update_parameters` copies
each list-valued entry of `self.logs` as `v[:-episodes_done]`: when no
episode finished this cycle every returned per-episode list is empty
(`v[:-0]` is `v[:0]`), and when `episodes_done > 0` the returned lists are
exactly `self.logs` minus its last `episodes_done` entries — which are
precisely the entries appended for the episodes finished this cycle, so the
returned lists equal the pre-cycle contents. -/
theorem update_parameters_returned_logs_slice (c : AgentCtx) (s0 : RolloutState)
    (ticks : List TickOracle) (sample : ℕ → List Transition) :
    ((DRRNAgent.update_parameters c s0 ticks sample).1.episodes_done = 0 →
      (DRRNAgent.update_parameters c s0 ticks sample).1.return_per_episode = [] ∧
      (DRRNAgent.update_parameters c s0 ticks
        sample).1.reshaped_return_per_episode = [] ∧
      (DRRNAgent.update_parameters c s0 ticks
        sample).1.reshaped_return_bonus_per_episode = [] ∧
      (DRRNAgent.update_parameters c s0 ticks sample).1.num_frames_per_episode
        = []) ∧
    (0 < (DRRNAgent.update_parameters c s0 ticks sample).1.episodes_done →
      (DRRNAgent.update_parameters c s0 ticks sample).1.return_per_episode =
        s0.logs.return_per_episode ∧
      (DRRNAgent.update_parameters c s0 ticks
        sample).1.reshaped_return_per_episode = s0.logs.reshaped_return_per_episode ∧
      (DRRNAgent.update_parameters c s0 ticks
        sample).1.reshaped_return_bonus_per_episode =
          s0.logs.reshaped_return_bonus_per_episode ∧
      (DRRNAgent.update_parameters c s0 ticks sample).1.num_frames_per_episode =
        s0.logs.num_frames_per_episode) := by
  have hret := update_parameters_ret_proj c s0 ticks sample
  obtain ⟨b1, b2, b3, d, h1, h2, h3, h4, h5, h6, h7, h8⟩ :=
    rolloutRun_logs_ex c { s0 with episodesDone := 0 } ticks
  have hd : (rolloutRun c { s0 with episodesDone := 0 } ticks).episodesDone = d := by
    rw [h5]
    simp
  constructor
  · intro hzero
    rw [hret.2.2.2.2] at hzero
    refine ⟨?_, ?_, ?_, ?_⟩
    · rw [hret.1, hzero]; rfl
    · rw [hret.2.1, hzero]; rfl
    · rw [hret.2.2.1, hzero]; rfl
    · rw [hret.2.2.2.1, hzero]; rfl
  · intro hpos
    rw [hret.2.2.2.2] at hpos
    have hne : (rolloutRun c { s0 with episodesDone := 0 } ticks).episodesDone ≠ 0 :=
      by omega
    refine ⟨?_, ?_, ?_, ?_⟩
    · rw [hret.1]
      unfold pySliceDropLast
      rw [if_neg hne, h1, hd]
      exact foldl_take_append _ b1 d h6
    · rw [hret.2.1]
      unfold pySliceDropLast
      rw [if_neg hne, h3, hd]
      exact foldl_take_append _ b3 d h8
    · rw [hret.2.2.1]
      unfold pySliceDropLast
      rw [if_neg hne, h4, hd]
      exact foldl_take_append _ b3 d h8
    · rw [hret.2.2.2.1]
      unfold pySliceDropLast
      rw [if_neg hne, h2, hd]
      exact foldl_take_append _ b2 d h7

/-- Claim C8: when the replay memory holds fewer transitions than one batch,
`DRRNAgent.update` returns no value and produces no optimizer event at all
(no sampling, no gradient step — the result of `update_parameters` does not
depend on the sampling oracle), and `update_parameters` consequently leaves
`self.logs['loss']` at its previous value, observable in the returned
logs. -/
theorem drrn_update_skip (c : AgentCtx) (s0 : RolloutState) (ticks : List TickOracle)
    (sample : ℕ → List Transition)
    (h : memLen (rolloutRun c { s0 with episodesDone := 0 } ticks).memory
      < c.batchSize) :
    ((DRRNAgent.update_parameters c s0 ticks sample).2.2.1 = none ∧
     (DRRNAgent.update_parameters c s0 ticks sample).2.2.2 = [] ∧
     (DRRNAgent.update_parameters c s0 ticks sample).1.loss = s0.logs.loss ∧
     (DRRNAgent.update_parameters c s0 ticks sample).2.1.logs.loss = s0.logs.loss ∧
     (DRRNAgent.update_parameters c s0 ticks sample).2.1.memory =
       (rolloutRun c { s0 with episodesDone := 0 } ticks).memory) ∧
    ∀ sample2 : ℕ → List Transition,
      DRRNAgent.update_parameters c s0 ticks sample2 =
        DRRNAgent.update_parameters c s0 ticks sample := by
  have hu : ∀ sm : ℕ → List Transition,
      DRRNAgent.update c.gamma c.clip c.batchSize c.network
        (rolloutRun c { s0 with episodesDone := 0 } ticks).memory sm = (none, []) := by
    intro sm
    unfold DRRNAgent.update
    rw [if_pos h]
  have hloss : (rolloutRun c { s0 with episodesDone := 0 } ticks).logs.loss =
      s0.logs.loss :=
    (rolloutRun_scalars c { s0 with episodesDone := 0 } ticks).2.2.2.2.2.2.1
  have hchar : ∀ sm : ℕ → List Transition,
      DRRNAgent.update_parameters c s0 ticks sm =
        DRRNAgent.update_parameters c s0 ticks sample := by
    intro sm
    simp only [DRRNAgent.update_parameters, hu]
  refine ⟨⟨?_, ?_, ?_, ?_, ?_⟩, hchar⟩
  · simp only [DRRNAgent.update_parameters, hu]
  · simp only [DRRNAgent.update_parameters, hu]
  · simp only [DRRNAgent.update_parameters, hu]
    exact hloss
  · simp only [DRRNAgent.update_parameters, hu]
    exact hloss
  · simp only [DRRNAgent.update_parameters, hu]

/-- Claim C5: when the candidate action list (of environment 0) is longer
than the hard-coded cap of 6, every sampled action index strictly greater
than 6 is replaced by 6 in the index array sent to `env.step`, indexes at
most 6 pass through unchanged, and with 6 or fewer candidates the whole
index array is passed through unchanged; regardless, the transition pushed
into the replay memory for environment `j` stores as its action the
*encoded action at the original, unclamped index*. -/
theorem action_index_clamping (c : AgentCtx) (s : RolloutState) (t : TickOracle)
    (h1 : s.states.length = c.n_envs) (h2 : c.encodedActions.length = c.n_envs)
    (h3 : t.sampleIdxs.length = c.n_envs) (h4 : t.out.rewards.length = c.n_envs)
    (h5 : t.out.dones.length = c.n_envs)
    (hcap : s.memory.nonPriorityPool.length + c.n_envs
      ≤ s.memory.nonPriorityCapacity) :
    (6 < (c.subgoals.headD []).length →
      (rolloutTick c s t).2 = t.sampleIdxs.map (fun i => if 6 < i then 6 else i) ∧
      (∀ k, k < c.n_envs → 6 < t.sampleIdxs.getD k 0 →
        (rolloutTick c s t).2.getD k 0 = 6) ∧
      (∀ k, k < c.n_envs → t.sampleIdxs.getD k 0 ≤ 6 →
        (rolloutTick c s t).2.getD k 0 = t.sampleIdxs.getD k 0)) ∧
    ((c.subgoals.headD []).length ≤ 6 → (rolloutTick c s t).2 = t.sampleIdxs) ∧
    (rolloutTick c s t).1.memory.nonPriorityPool.length =
      s.memory.nonPriorityPool.length + c.n_envs ∧
    (∀ j, j < c.n_envs →
      ((rolloutTick c s t).1.memory.nonPriorityPool.get?
        (s.memory.nonPriorityPool.length + j)).map Transition.act =
        some ((c.encodedActions.getD j []).getD (t.sampleIdxs.getD j 0) [])) := by
  have hbk := bkFold_scalars t.out (tickActions c t) (tickReshaped c t) c.n_envs s
  have hmem := rolloutTick_memory c s t
  have hlax : (tickActionIds c t).length = c.n_envs := by
    unfold tickActionIds
    rw [List.length_zipWith, h2, h3, min_self]
  have hlrs : (tickReshaped c t).length = c.n_envs := by
    unfold tickReshaped
    rw [List.length_map, h4]
  have hlns : (tickNextStates c t
      (bkFold t.out (tickActions c t) (tickReshaped c t) c.n_envs s)).length
      = c.n_envs := by
    unfold tickNextStates
    rw [List.length_map, List.length_range]
  have hzlen := zipTransitions_length c.n_envs s.states (tickActionIds c t)
    (tickReshaped c t)
    (tickNextStates c t (bkFold t.out (tickActions c t) (tickReshaped c t) c.n_envs s))
    c.encodedActions t.out.dones h1 hlax hlrs hlns h2 h5
  have hpool : (rolloutTick c s t).1.memory.nonPriorityPool =
      s.memory.nonPriorityPool ++ zipTransitions s.states (tickActionIds c t)
        (tickReshaped c t)
        (tickNextStates c t
          (bkFold t.out (tickActions c t) (tickReshaped c t) c.n_envs s))
        c.encodedActions t.out.dones := by
    rw [hmem, observeAll_eq_foldl, hbk.1]
    rw [observe_foldl_nonPriorityPool _ s.memory (by rw [hzlen]; exact hcap)]
  refine ⟨?_, ?_, ?_, ?_⟩
  · intro h6
    rw [rolloutTick_sent, if_pos h6]
    refine ⟨rfl, ?_, ?_⟩
    · intro k hk hv
      have hm : (t.sampleIdxs.map (fun i => if 6 < i then 6 else i)).getD k 0 =
          if 6 < t.sampleIdxs.getD k 0 then 6 else t.sampleIdxs.getD k 0 :=
        getD_map_of_lt (fun i => if 6 < i then 6 else i) t.sampleIdxs k 0 (by omega)
      rw [hm, if_pos hv]
    · intro k hk hv
      have hm : (t.sampleIdxs.map (fun i => if 6 < i then 6 else i)).getD k 0 =
          if 6 < t.sampleIdxs.getD k 0 then 6 else t.sampleIdxs.getD k 0 :=
        getD_map_of_lt (fun i => if 6 < i then 6 else i) t.sampleIdxs k 0 (by omega)
      rw [hm, if_neg (by omega)]
  · intro h6
    rw [rolloutTick_sent, if_neg (by omega)]
  · rw [hpool, List.length_append, hzlen]
  · intro j hj
    rw [hpool, List.get?_append_right (by omega)]
    rw [show s.memory.nonPriorityPool.length + j - s.memory.nonPriorityPool.length
      = j by omega]
    rw [zipTransitions_get j c.n_envs s.states (tickActionIds c t) (tickReshaped c t)
      (tickNextStates c t
        (bkFold t.out (tickActions c t) (tickReshaped c t) c.n_envs s))
      c.encodedActions t.out.dones h1 hlax hlrs hlns h2 h5 hj]
    have hz : (List.zipWith (fun acts idx => acts.getD idx []) c.encodedActions
        t.sampleIdxs).getD j [] =
        (c.encodedActions.getD j []).getD (t.sampleIdxs.getD j 0) [] :=
      getD_zipWith_of_lt (fun acts idx => acts.getD idx []) c.encodedActions
        t.sampleIdxs j ([] : List TokenIds) 0 (by omega) (by omega)
    show some ((List.zipWith (fun acts idx => acts.getD idx []) c.encodedActions
      t.sampleIdxs).getD j []) =
      some ((c.encodedActions.getD j []).getD (t.sampleIdxs.getD j 0) [])
    rw [hz]

/-- Claim C1: in the rollout loop of `DRRNAgent.update_parameters` (the
identical per-slot bookkeeping also runs in `generate_trajectories`,
`drrn.py` lines 235-254), for every environment slot `j` whose post-step
done flag is true at the final tick of the episode: the driver appends to
`logs['return_per_episode']` exactly the sum of the raw rewards received by
slot `j` since its last reset (the entry for `j` sits at offset
`countP` of done slots below `j` inside the appended block), appends the
episode frame count to `logs['num_frames_per_episode']`, resets the return,
reshaped-return and frame-count accumulators of slot `j` to zero, and
leaves slot `j`'s observation and action history deques empty immediately
afterwards — all of which is visible in the state `update_parameters`
returns. -/
theorem update_parameters_episode_bookkeeping (c : AgentCtx) (s0 : RolloutState)
    (pre : List TickOracle) (tl : TickOracle) (sample : ℕ → List Transition)
    (j : ℕ) (sPre sF : RolloutState)
    (hS : SlotLen s0 c.n_envs) (hj : j < c.n_envs)
    (h0 : s0.returns.getD j 0 = 0) (h0f : s0.framesPerEpisode.getD j 0 = 0)
    (hpre : ∀ t ∈ pre, t.out.dones.getD j false = false)
    (hdone : tl.out.dones.getD j false = true)
    (hsPre : sPre = rolloutRun c { s0 with episodesDone := 0 } pre)
    (hsF : sF = (rolloutTick c sPre tl).1) :
    sF.logs.return_per_episode = sPre.logs.return_per_episode ++
      (List.range c.n_envs).filterMap (fun i => if tl.out.dones.getD i false then
        some (sPre.returns.getD i 0 + tl.out.rewards.getD i 0) else none) ∧
    ((List.range c.n_envs).filterMap (fun i => if tl.out.dones.getD i false then
        some (sPre.returns.getD i 0 + tl.out.rewards.getD i 0) else none)).get?
      ((List.range j).countP (fun i => tl.out.dones.getD i false)) =
      some ((pre.map (fun t => t.out.rewards.getD j 0)).sum +
        tl.out.rewards.getD j 0) ∧
    sF.logs.num_frames_per_episode = sPre.logs.num_frames_per_episode ++
      (List.range c.n_envs).filterMap (fun i => if tl.out.dones.getD i false then
        some (sPre.framesPerEpisode.getD i 0 + 1) else none) ∧
    ((List.range c.n_envs).filterMap (fun i => if tl.out.dones.getD i false then
        some (sPre.framesPerEpisode.getD i 0 + 1) else none)).get?
      ((List.range j).countP (fun i => tl.out.dones.getD i false)) =
      some (pre.length + 1) ∧
    (sF.returns.getD j 0 = 0 ∧ sF.reshapedReturns.getD j 0 = 0 ∧
      sF.framesPerEpisode.getD j 0 = 0) ∧
    (sF.obsQueue.getD j [] = [] ∧ sF.actsQueue.getD j [] = []) ∧
    ((DRRNAgent.update_parameters c s0 (pre ++ [tl])
        sample).2.1.logs.return_per_episode = sF.logs.return_per_episode ∧
      (DRRNAgent.update_parameters c s0 (pre ++ [tl])
        sample).2.1.obsQueue.getD j [] = [] ∧
      (DRRNAgent.update_parameters c s0 (pre ++ [tl])
        sample).2.1.actsQueue.getD j [] = []) := by
  have hS0 : SlotLen ({ s0 with episodesDone := 0 } : RolloutState) c.n_envs := hS
  have hSpre : SlotLen sPre c.n_envs := by
    rw [hsPre]
    exact rolloutRun_slotLen c _ pre c.n_envs hS0
  have h00 : ({ s0 with episodesDone := 0 } : RolloutState).returns.getD j 0 = 0 := h0
  have h00f : ({ s0 with episodesDone := 0 } :
      RolloutState).framesPerEpisode.getD j 0 = 0 := h0f
  have haccum := rolloutRun_notdone_accum c { s0 with episodesDone := 0 } pre j
    hS0 hj hpre
  have hrets : sPre.returns.getD j 0 =
      (pre.map (fun t => t.out.rewards.getD j 0)).sum := by
    rw [hsPre, haccum.1, h00, zero_add]
  have hframes : sPre.framesPerEpisode.getD j 0 = pre.length := by
    rw [hsPre, haccum.2, h00f, zero_add]
  have hblock := rolloutTick_logs_block c sPre tl hSpre
  have hdoneslot := rolloutTick_done_slot c sPre tl j hSpre hj hdone
  have hrunapp : rolloutRun c { s0 with episodesDone := 0 } (pre ++ [tl]) = sF := by
    rw [hsF, hsPre]
    unfold rolloutRun
    rw [List.foldl_append]
    rfl
  have hstate := update_parameters_state_proj c s0 (pre ++ [tl]) sample
  refine ⟨?_, ?_, ?_, ?_, ?_, ?_, ?_⟩
  · rw [hsF]; exact hblock.1
  · have hget : ((List.range c.n_envs).filterMap (fun i =>
        if tl.out.dones.getD i false then
          some (sPre.returns.getD i 0 + tl.out.rewards.getD i 0) else none)).get?
        ((List.range j).countP (fun i => tl.out.dones.getD i false)) =
        some (sPre.returns.getD j 0 + tl.out.rewards.getD j 0) :=
      filterMap_range_get (fun i => tl.out.dones.getD i false)
        (fun i => sPre.returns.getD i 0 + tl.out.rewards.getD i 0) c.n_envs j hj hdone
    rw [hrets] at hget
    exact hget
  · rw [hsF]; exact hblock.2.1
  · have hget : ((List.range c.n_envs).filterMap (fun i =>
        if tl.out.dones.getD i false then
          some (sPre.framesPerEpisode.getD i 0 + 1) else none)).get?
        ((List.range j).countP (fun i => tl.out.dones.getD i false)) =
        some (sPre.framesPerEpisode.getD j 0 + 1) :=
      filterMap_range_get (fun i => tl.out.dones.getD i false)
        (fun i => sPre.framesPerEpisode.getD i 0 + 1) c.n_envs j hj hdone
    rw [hframes] at hget
    exact hget
  · rw [hsF]
    exact ⟨hdoneslot.1, hdoneslot.2.1, hdoneslot.2.2.1⟩
  · rw [hsF]
    exact ⟨hdoneslot.2.2.2.1, hdoneslot.2.2.2.2⟩
  · refine ⟨?_, ?_, ?_⟩
    · rw [hstate.1, hrunapp]
    · rw [hstate.2.2.2.2.2.1, hrunapp, hsF]
      exact hdoneslot.2.2.2.1
    · rw [hstate.2.2.2.2.2.2.1, hrunapp, hsF]
      exact hdoneslot.2.2.2.2

/-! ## Concrete evaluation fixtures and witnesses -/

def ctxW : AgentCtx :=
  { n_envs := 1
    subgoals := [["go left"]]
    encodedActions := [[[3]]]
    reshapeReward := fun r => (r, 0)
    generatePrompt := fun _ _ _ _ => "p"
    encode := fun _ => [1]
    network := fun _ acts => acts.map (fun _ => (0 : ℚ))
    gamma := 9 / 10
    batchSize := 1
    clip := 5 }

def logsW : Logs :=
  { return_per_episode := [7]
    reshaped_return_per_episode := [8]
    reshaped_return_bonus_per_episode := [8]
    num_frames_per_episode := [4]
    num_frames := 4
    episodes_done := 0
    entropy := 0
    policy_loss := 0
    value_loss := 0
    grad_norm := 0
    loss := 3 }

def stateW : RolloutState :=
  { states := [[2]]
    returns := [0]
    reshapedReturns := [0]
    framesPerEpisode := [0]
    obsQueue := [[]]
    actsQueue := [[]]
    logs := logsW
    memory := initDRRNMemory 10 drrn_default_priority_fraction
    episodesDone := 0 }

def tickW : TickOracle :=
  { sampleIdxs := [0]
    out := { missions := ["m"], rewards := [2], dones := [true], descriptions := [[]] } }

def sampleW : ℕ → List Transition := fun _ => []

theorem drrn_update_skip_witness :
    memLen (rolloutRun ctxW { stateW with episodesDone := 0 } []).memory
      < ctxW.batchSize ∧
    ((DRRNAgent.update_parameters ctxW stateW [] sampleW).2.2.1 = none ∧
     (DRRNAgent.update_parameters ctxW stateW [] sampleW).2.2.2 = [] ∧
     (DRRNAgent.update_parameters ctxW stateW [] sampleW).1.loss = stateW.logs.loss ∧
     (DRRNAgent.update_parameters ctxW stateW [] sampleW).2.1.logs.loss =
       stateW.logs.loss ∧
     (DRRNAgent.update_parameters ctxW stateW [] sampleW).2.1.memory =
       (rolloutRun ctxW { stateW with episodesDone := 0 } []).memory) :=
  ⟨by decide, (drrn_update_skip ctxW stateW [] sampleW (by decide)).1⟩

theorem update_parameters_returned_logs_slice_witness :
    0 < (DRRNAgent.update_parameters ctxW stateW [tickW] sampleW).1.episodes_done ∧
    ((DRRNAgent.update_parameters ctxW stateW [tickW] sampleW).1.return_per_episode =
        stateW.logs.return_per_episode ∧
     (DRRNAgent.update_parameters ctxW stateW [tickW]
        sampleW).1.reshaped_return_per_episode =
          stateW.logs.reshaped_return_per_episode ∧
     (DRRNAgent.update_parameters ctxW stateW [tickW]
        sampleW).1.reshaped_return_bonus_per_episode =
          stateW.logs.reshaped_return_bonus_per_episode ∧
     (DRRNAgent.update_parameters ctxW stateW [tickW]
        sampleW).1.num_frames_per_episode = stateW.logs.num_frames_per_episode) :=
  ⟨by decide,
    (update_parameters_returned_logs_slice ctxW stateW [tickW] sampleW).2 (by decide)⟩

def trW : Transition :=
  { state := [], act := [0], reward := 2, next_state := [], next_acts := [[0]],
    done := true }

def memW : PrioritizedReplayMemory :=
  { priorityCapacity := 10, nonPriorityCapacity := 10, priority_fraction := 0,
    priorityPool := [], nonPriorityPool := [trW] }

def netW : TokenIds → List TokenIds → List ℚ :=
  fun _ acts => acts.map (fun _ => (1 : ℚ))

def sample1W : ℕ → List Transition := fun _ => [trW]

theorem drrn_update_batch_witness :
    (1 : ℕ) ≤ memLen memW ∧
    DRRNAgent.update (9 / 10) 5 1 netW memW sample1W =
      (some (1 / 2), [OptimEvent.zero_grad, OptimEvent.backward,
        OptimEvent.clip_grad_norm 5, OptimEvent.adam_step]) :=
  ⟨by decide, by
    rw [(drrn_update_batch (9 / 10) 5 1 netW memW sample1W (by decide)
      (fun t ht => ⟨1, rfl⟩)).1]
    simp only [sample1W, trW, netW, List.map_cons, List.map_nil]
    norm_num [smooth_l1_loss, huber, maxD, List.zipWith_cons_cons]⟩

def expW : ℚ → ℚ := fun x => 1 + x

theorem ppo_ratio_one_policy_loss_witness :
    (expW 0 = 1 ∧ ([2, 3] : List ℚ).length = ([1 / 2, -1] : List ℚ).length ∧
      (0 : ℚ) ≤ 1 / 5) ∧
    ppoSurr1 expW [1 / 2, -1] [1 / 2, -1] [2, 3] =
      ppoSurr2 expW [1 / 2, -1] [1 / 2, -1] [2, 3] (1 / 5) ∧
    ppoPolicyLoss expW [1 / 2, -1] [1 / 2, -1] [2, 3] (1 / 5) = -(listMean [2, 3]) :=
  ⟨⟨by norm_num [expW], by decide, by norm_num⟩,
    ppo_ratio_one_policy_loss expW [1 / 2, -1] [1 / 2, -1] [2, 3] (1 / 5)
      (by norm_num [expW]) rfl (by decide) (by norm_num)⟩

def fsW : PPOCkptStore ℕ ℕ :=
  { last_model := none, last_optim := none, backup_model := some 7,
    backup_optim := some 8 }

theorem ppo_load_fallback_witness :
    (fsW.last_model = none ∨ fsW.last_optim = none) ∧
    loadFineTuned fsW = Except.ok ((7, 8),
      { fsW with last_model := some 7, last_optim := some 8 }) :=
  ⟨Or.inl rfl, (ppo_load_fallback ℕ ℕ fsW (Or.inl rfl)).1 7 8 rfl rfl⟩

theorem drrn_load_error_containment_witness :
    DRRNAgent.load (0 : ℕ) (0 : ℕ) (Except.error ()) (Except.error ())
      (Except.ok (5 : ℕ)) = Except.ok (0, 0, 5) :=
  ((drrn_load_error_containment ℕ ℕ ℕ Unit 0 0 (Except.error ()) (Except.error ())
    (Except.ok 5)).2 5 rfl).1 () rfl

def ctx5W : AgentCtx :=
  { n_envs := 1
    subgoals := [["a", "b", "c", "d", "e", "f", "g", "h"]]
    encodedActions := [[[1], [2], [3], [4], [5], [6], [7], [8]]]
    reshapeReward := fun r => (r, 0)
    generatePrompt := fun _ _ _ _ => "p"
    encode := fun _ => [1]
    network := fun _ acts => acts.map (fun _ => (0 : ℚ))
    gamma := 9 / 10
    batchSize := 64
    clip := 5 }

def tick5W : TickOracle :=
  { sampleIdxs := [7]
    out :=
      { missions := ["m"]
        rewards := [0]
        dones := [false]
        descriptions := [[]] } }

theorem action_index_clamping_witness :
    (stateW.states.length = ctx5W.n_envs ∧
     ctx5W.encodedActions.length = ctx5W.n_envs ∧
     tick5W.sampleIdxs.length = ctx5W.n_envs ∧
     stateW.memory.nonPriorityPool.length + ctx5W.n_envs
       ≤ stateW.memory.nonPriorityCapacity) ∧
    (rolloutTick ctx5W stateW tick5W).2 = [6] ∧
    ((rolloutTick ctx5W stateW tick5W).1.memory.nonPriorityPool.get? 0).map
      Transition.act = some [8] := by
  have h := action_index_clamping ctx5W stateW tick5W (by decide) (by decide)
    (by decide) (by decide) (by decide) (by decide)
  refine ⟨⟨by decide, by decide, by decide, by decide⟩, ?_, ?_⟩
  · rw [(h.1 (by decide)).1]
    decide
  · exact h.2.2.2 0 (by decide)

theorem update_parameters_episode_bookkeeping_witness :
    (SlotLen stateW ctxW.n_envs ∧ 0 < ctxW.n_envs ∧
      stateW.returns.getD 0 0 = 0 ∧ stateW.framesPerEpisode.getD 0 0 = 0 ∧
      tickW.out.dones.getD 0 false = true) ∧
    ((rolloutTick ctxW (rolloutRun ctxW { stateW with episodesDone := 0 } [])
        tickW).1.returns.getD 0 0 = 0 ∧
     (rolloutTick ctxW (rolloutRun ctxW { stateW with episodesDone := 0 } [])
        tickW).1.framesPerEpisode.getD 0 0 = 0 ∧
     (rolloutTick ctxW (rolloutRun ctxW { stateW with episodesDone := 0 } [])
        tickW).1.obsQueue.getD 0 [] = [] ∧
     (rolloutTick ctxW (rolloutRun ctxW { stateW with episodesDone := 0 } [])
        tickW).1.actsQueue.getD 0 [] = []) ∧
    (rolloutTick ctxW (rolloutRun ctxW { stateW with episodesDone := 0 } [])
        tickW).1.logs.return_per_episode =
      stateW.logs.return_per_episode ++
        [stateW.returns.getD 0 0 + tickW.out.rewards.getD 0 0] ∧
    (rolloutTick ctxW (rolloutRun ctxW { stateW with episodesDone := 0 } [])
        tickW).1.logs.num_frames_per_episode =
      stateW.logs.num_frames_per_episode ++
        [stateW.framesPerEpisode.getD 0 0 + 1] := by
  have h := update_parameters_episode_bookkeeping ctxW stateW [] tickW sampleW 0
    (rolloutRun ctxW { stateW with episodesDone := 0 } [])
    ((rolloutTick ctxW (rolloutRun ctxW { stateW with episodesDone := 0 } [])
      tickW).1)
    (by decide) (by decide) rfl rfl
    (fun t ht => absurd ht (List.not_mem_nil t)) rfl rfl rfl
  refine ⟨⟨by decide, by decide, rfl, rfl, rfl⟩, ⟨?_, ?_, ?_, ?_⟩, ?_, ?_⟩
  · exact h.2.2.2.2.1.1
  · exact h.2.2.2.2.1.2.2
  · exact h.2.2.2.2.2.1.1
  · exact h.2.2.2.2.2.1.2
  · rw [h.1]
    rfl
  · rw [h.2.2.1]
    rfl
